import Mathlib

/-!
Shallow embedding of the padloc server controller
(`src/packages/core/src/server.ts`) and proofs about it.

Modelling conventions:
* Machine state (`ServerState`) is an explicit record of association lists,
  one per persisted record type, mirroring the `Storage` port (an object
  store keyed by type + id).  `storage.save` is an upsert of a snapshot of
  the value, `storage.delete` removes by key, `storage.get` is a lookup
  that surfaces `NOT_FOUND` as an `Except` error (the TypeScript code
  catches and rethrows those errors explicitly).
* Each controller operation is a function
  `Context → ServerState → params → Except ErrorCode result × ServerState`.
  A thrown `Err` aborts the rest of the operation but keeps all storage
  writes performed before the throw, exactly like a JS exception unwinding
  past already-`await`ed `storage.save` calls.
* Opaque byte strings (keys, verifiers, SRP values) are modelled as `Nat`;
  `bytesToHex` equality is equality.  `uuid()` draws from the `nextId`
  counter of the state.  Wall-clock timestamps come from the `now` field.
* Classes that live outside `server.ts` (Org role helpers, the SRP server,
  the EmailVerification record) are modelled from the spec; each such
  definition carries a doc comment saying so.
-/

deriving instance DecidableEq for Except

/-- The source's `code.toLowerCase()`: lower-case every character. -/
def lowerString (s : String) : String :=
  ⟨s.data.map Char.toLower⟩

/-- Error codes from `error.ts` (only the constructor matters here; the
human-readable message attached to an `Err` is dropped). -/
inductive ErrorCode where
  | notFound
  | badRequest
  | invalidCredentials
  | invalidSession
  | sessionExpired
  | invalidRequest
  | emailVerificationRequired
  | emailVerificationFailed
  | emailVerificationTriesExceeded
  | accountExists
  | outdatedRevision
  | insufficientPermissions
  | quotaExceeded
  | notSupported
  | serverError
  deriving DecidableEq, Repr

/-- Device fingerprint (`DeviceInfo` from `platform.ts`); only the `id`
field is consulted by the controller. -/
structure DeviceInfo where
  id : Nat
  deriving DecidableEq, Repr

/-- A `Session` record (`session.ts`).  The negotiated symmetric key is
optional because `createSession` deletes it from the returned copy. -/
structure Session where
  id : Nat
  account : Nat
  device : Option DeviceInfo := none
  key : Option Nat := none
  expires : Option Nat := none
  lastUsed : Nat := 0
  updated : Nat := 0
  deriving DecidableEq, Repr

/-- Modelled from the spec: the session summary (`session.info`) --- the
session as held in an account's session list, "summaries, not secrets",
i.e. without the negotiated key. -/
def Session.info (s : Session) : Session :=
  { s with key := none }

structure AccountQuota where
  orgs : Int := -1
  storage : Int := -1
  deriving DecidableEq, Repr

/-- An `Account` record (`account.ts`).  The opaque cryptographic blobs
(public key, key params, encrypted profile) are bare `Nat`s. -/
structure Account where
  id : Nat := 0
  email : String := ""
  name : String := ""
  publicKey : Nat := 0
  keyParams : Nat := 0
  encryptionParams : Nat := 0
  encryptedData : Nat := 0
  revision : Nat := 0
  mainVault : Nat := 0
  sessions : List Session := []
  orgs : List Nat := []
  quota : AccountQuota := {}
  updated : Nat := 0
  deriving DecidableEq, Repr

/-- An `Auth` record (`auth.ts`): keyed by email, holds the SRP verifier
and the trusted-device list.  Its storage id (`auth.id`) is the email. -/
structure Auth where
  email : String := ""
  account : Nat := 0
  verifier : Nat := 0
  trustedDevices : List DeviceInfo := []
  deriving DecidableEq, Repr

/-- Modelled from the spec: the `EmailVerification` record
(`email-verification.ts`, not in the sources) --- email (key), a
user-facing `code`, a system-facing `token` and a `tries` counter
starting at zero. -/
structure EmailVerification where
  email : String := ""
  code : String := ""
  token : Nat := 0
  tries : Nat := 0
  deriving DecidableEq, Repr

/-- The `vault.org` reference (`{ id }`); the controller only reads its
`id`. -/
structure OrgRef where
  id : Nat
  deriving DecidableEq, Repr

/-- A `Vault` record (`vault.ts`): either a private vault (direct
`owner`) or an org vault (`org` reference). -/
structure Vault where
  id : Nat := 0
  name : String := ""
  owner : Option Nat := none
  org : Option OrgRef := none
  revision : Nat := 0
  keyParams : Nat := 0
  encryptionParams : Nat := 0
  accessors : Nat := 0
  encryptedData : Nat := 0
  created : Nat := 0
  updated : Nat := 0
  deriving DecidableEq, Repr

/-- Modelled from the spec: org roles, ordered by privilege ---
Owner, Admin, Member, Suspended (`org.ts`, not in the sources). -/
inductive OrgRole where
  | owner
  | admin
  | member
  | suspended
  deriving DecidableEq, Repr

/-- An entry of `org.vaults` (`{ id, name }`). -/
structure VaultEntry where
  id : Nat
  name : String
  deriving DecidableEq, Repr

/-- Modelled from the spec: a vault assignment held by a member or group,
carrying the vault id and whether the assignment is read-only. -/
structure MemberVaultRef where
  id : Nat
  readonly : Bool := false
  deriving DecidableEq, Repr

/-- Modelled from the spec: an org membership record --- account id,
denormalized email/name, role and assigned vaults. -/
structure OrgMember where
  id : Nat
  email : String := ""
  name : String := ""
  role : OrgRole := .member
  vaults : List MemberVaultRef := []
  deriving DecidableEq, Repr

/-- Modelled from the spec: a named group --- member account ids plus
vault assignments, assignable to members. -/
structure OrgGroup where
  name : String := ""
  members : List Nat := []
  vaults : List MemberVaultRef := []
  deriving DecidableEq, Repr

/-- An `Invite` record as held on an org. -/
structure Invite where
  id : Nat
  email : String := ""
  accepted : Bool := false
  deriving DecidableEq, Repr

structure OrgQuota where
  members : Int := -1
  groups : Int := -1
  vaults : Int := -1
  storage : Int := -1
  deriving DecidableEq, Repr

/-- An `Org` record (`org.ts`).  The opaque owner-only cryptographic
fields are bare `Nat`s. -/
structure Org where
  id : Nat := 0
  name : String := ""
  owner : Nat := 0
  revision : Nat := 0
  publicKey : Nat := 0
  keyParams : Nat := 0
  encryptionParams : Nat := 0
  encryptedData : Nat := 0
  signingParams : Nat := 0
  accessors : Nat := 0
  members : List OrgMember := []
  groups : List OrgGroup := []
  vaults : List VaultEntry := []
  invites : List Invite := []
  quota : OrgQuota := {}
  deriving DecidableEq, Repr

/-- Modelled from the spec: `org.getMember` --- the membership record for
an account id, if any. -/
def Org.getMember (o : Org) (accId : Nat) : Option OrgMember :=
  o.members.find? (fun m => m.id == accId)

/-- Modelled from the spec: `org.isMember`. -/
def Org.isMember (o : Org) (accId : Nat) : Bool :=
  (o.getMember accId).isSome

/-- Modelled from the spec: `org.isOwner` --- membership with role
Owner. -/
def Org.isOwner (o : Org) (accId : Nat) : Bool :=
  match o.getMember accId with
  | some m => m.role == .owner
  | none => false

/-- Modelled from the spec: `org.isAdmin` --- membership with role Owner
or Admin ("ordered by privilege"). -/
def Org.isAdmin (o : Org) (accId : Nat) : Bool :=
  match o.getMember accId with
  | some m => m.role == .owner || m.role == .admin
  | none => false

/-- Modelled from the spec: `org.getInvite`. -/
def Org.getInvite (o : Org) (inviteId : Nat) : Option Invite :=
  o.invites.find? (fun i => i.id == inviteId)

/-- Modelled from the spec: the groups a member belongs to. -/
def Org.groupsForMember (o : Org) (accId : Nat) : List OrgGroup :=
  o.groups.filter (fun g => g.members.contains accId)

/-- Modelled from the spec: all vault assignments reaching a member,
directly or through its groups. -/
def Org.vaultRefsForMember (o : Org) (accId : Nat) : List MemberVaultRef :=
  (match o.getMember accId with
   | some m => m.vaults
   | none => []) ++ (o.groupsForMember accId).foldr (fun g acc => g.vaults ++ acc) []

/-- Modelled from the spec: `org.canRead` --- "owners and admins always
read all member vaults; a plain member reads only vaults explicitly
assigned to them or their groups"; Suspended has no capabilities. -/
def Org.canRead (o : Org) (v : Vault) (accId : Nat) : Bool :=
  o.isAdmin accId ||
    (match o.getMember accId with
     | some m => m.role == .member && (o.vaultRefsForMember accId).any (fun r => r.id == v.id)
     | none => false)

/-- Modelled from the spec: `org.canWrite` --- "same base rule as read
but privilege must additionally include write capability
(assignment-specific or admin/owner)". -/
def Org.canWrite (o : Org) (v : Vault) (accId : Nat) : Bool :=
  o.isAdmin accId ||
    (match o.getMember accId with
     | some m => m.role == .member && (o.vaultRefsForMember accId).any (fun r => r.id == v.id && !r.readonly)
     | none => false)

/-- An `Attachment` metadata record (`attachment.ts`): id, owning vault
and size in bytes. -/
structure Attachment where
  id : Nat := 0
  vault : Nat := 0
  size : Nat := 0
  deriving DecidableEq, Repr

/-- Modelled from the spec: the external SRP exchange capability
(`srp.ts` is out of scope).  The server half is seeded with the account
verifier and a random ephemeral `b`; it exposes the public ephemeral `B`
and, once the client value `A` is applied, the expected client proof `M1`
and the shared key `K`.  The concrete formulas below are opaque stand-ins
for the SRP math; the controller only compares and stores them. -/
structure SRPServer where
  verifier : Nat
  b : Nat
  deriving DecidableEq, Repr

/-- Modelled from the spec: the server public ephemeral value. -/
def SRPServer.pubB (s : SRPServer) : Nat :=
  Nat.pair s.verifier s.b

/-- Modelled from the spec: the expected client proof derived from the
exchange state and the client ephemeral `A`. -/
def SRPServer.M1 (s : SRPServer) (A : Nat) : Nat :=
  Nat.pair (Nat.pair s.verifier s.b) (Nat.pair A 1)

/-- Modelled from the spec: the negotiated shared session key. -/
def SRPServer.K (s : SRPServer) (A : Nat) : Nat :=
  Nat.pair (Nat.pair s.verifier s.b) (Nat.pair A 2)

/-- Association-list lookup by key, the `storage.get` primitive. -/
def lookupKey {κ α : Type} [DecidableEq κ] : List (κ × α) → κ → Option α
  | [], _ => none
  | p :: rest, k => if p.1 = k then some p.2 else lookupKey rest k

/-- Association-list upsert, the `storage.save` primitive: replaces the
first entry with the key or appends. -/
def upsertKey {κ α : Type} [DecidableEq κ] : List (κ × α) → κ → α → List (κ × α)
  | [], k, a => [(k, a)]
  | p :: rest, k, a => if p.1 = k then (k, a) :: rest else p :: upsertKey rest k a

/-- Association-list removal, the `storage.delete` primitive. -/
def removeKey {κ α : Type} [DecidableEq κ] : List (κ × α) → κ → List (κ × α)
  | [], _ => []
  | p :: rest, k => if p.1 = k then removeKey rest k else p :: removeKey rest k

/-- The whole persisted world plus the transient pieces of server state:
the `pendingAuths` SRP map, the uuid/randomness source `nextId` and the
request clock `now`. -/
structure ServerState where
  auths : List (String × Auth) := []
  accounts : List (Nat × Account) := []
  sessions : List (Nat × Session) := []
  orgs : List (Nat × Org) := []
  vaults : List (Nat × Vault) := []
  emailVerifications : List (String × EmailVerification) := []
  attachments : List ((Nat × Nat) × Attachment) := []
  pendingAuths : List (Nat × SRPServer) := []
  nextId : Nat := 100
  now : Nat := 0
  deriving DecidableEq, Repr

/-- The per-request `Context`: session, account and device, filled in by
the dispatcher's authenticate step. -/
structure Context where
  session : Option Session := none
  account : Option Account := none
  device : Option DeviceInfo := none
  deriving DecidableEq, Repr

/-- `Controller._requireAuth`: both session and account must be present
on the context, else `INVALID_SESSION`. -/
def requireAuth (ctx : Context) : Except ErrorCode (Account × Session) :=
  match ctx.account, ctx.session with
  | some account, some session => .ok (account, session)
  | _, _ => .error .invalidSession

/-- `Controller._checkEmailVerificationCode` (lines 810-834): missing
record is `EMAIL_VERIFICATION_REQUIRED`; a wrong code (compared against
the lowercased submission) increments `tries` and fails
`EMAIL_VERIFICATION_TRIES_EXCEEDED` with the record destroyed once
`tries > 5`, else saves the bumped record and fails
`EMAIL_VERIFICATION_FAILED`; a matching code returns the token (and does
not touch the record). -/
def checkEmailVerificationCode (st : ServerState) (email code : String) :
    Except ErrorCode Nat × ServerState :=
  match lookupKey st.emailVerifications email with
  | none => (.error .emailVerificationRequired, st)
  | some ev =>
    if ev.code ≠ lowerString code then
      let ev := { ev with tries := ev.tries + 1 }
      if ev.tries > 5 then
        (.error .emailVerificationTriesExceeded,
          { st with emailVerifications := removeKey st.emailVerifications email })
      else
        (.error .emailVerificationFailed,
          { st with emailVerifications := upsertKey st.emailVerifications email ev })
    else
      (.ok ev.token, st)

/-- `Controller.completeEmailVerification` (lines 82-84). -/
def completeEmailVerification (st : ServerState) (email code : String) :
    Except ErrorCode Nat × ServerState :=
  checkEmailVerificationCode st email code

/-- `Controller._checkEmailVerificationToken` (lines 836-853): missing
record or mismatched token is `EMAIL_VERIFICATION_FAILED`; on success the
record is deleted (single use). -/
def checkEmailVerificationToken (st : ServerState) (email : String) (token : Nat) :
    Except ErrorCode Unit × ServerState :=
  match lookupKey st.emailVerifications email with
  | none => (.error .emailVerificationFailed, st)
  | some ev =>
    if ev.token ≠ token then (.error .emailVerificationFailed, st)
    else (.ok (), { st with emailVerifications := removeKey st.emailVerifications email })

/-- The response of `initAuth`: the auth record plus the server public
ephemeral `B`. -/
structure InitAuthResponse where
  auth : Auth
  B : Nat
  deriving DecidableEq, Repr

/-- Trusted-device test: `auth.trustedDevices.some(({id}) => id === device.id)`,
guarded by both the auth record and the context device being present. -/
def deviceTrusted (auth? : Option Auth) (device? : Option DeviceInfo) : Bool :=
  match auth?, device? with
  | some auth, some device => auth.trustedDevices.any (fun td => td.id == device.id)
  | _, _ => false

/-- Shared tail of `initAuth`: fail `NOT_FOUND` when no auth record
exists, otherwise initialize the SRP exchange from the stored verifier
(drawing the random ephemeral from the entropy source), store it in
`pendingAuths` keyed by the account id, and return the auth record plus
`B`. -/
def initAuthStartSRP (st : ServerState) (auth? : Option Auth) :
    Except ErrorCode InitAuthResponse × ServerState :=
  match auth? with
  | none => (.error .notFound, st)
  | some auth =>
    let srp : SRPServer := { verifier := auth.verifier, b := st.nextId }
    (.ok { auth := auth, B := srp.pubB },
      { st with nextId := st.nextId + 1,
                pendingAuths := upsertKey st.pendingAuths auth.account srp })

/-- `Controller.initAuth` (lines 86-127).  For an untrusted device a
missing `verify` token throws `EMAIL_VERIFICATION_REQUIRED`; a supplied
token is handed to `_checkEmailVerificationToken`, but the source does
NOT `await` that call (line 104), so its rejection is never propagated:
only its storage effect (deleting the record when the token matches)
lands, and the operation proceeds regardless of the check's outcome. -/
def initAuth (ctx : Context) (st : ServerState) (email : String) (verify : Option Nat) :
    Except ErrorCode InitAuthResponse × ServerState :=
  let auth? := lookupKey st.auths email
  if ¬ deviceTrusted auth? ctx.device then
    match verify with
    | none => (.error .emailVerificationRequired, st)
    | some v =>
      let st := (checkEmailVerificationToken st email v).2
      initAuthStartSRP st auth?
  else
    initAuthStartSRP st auth?

/-- Parameters of `createSession`: the account id, the client public
ephemeral `A` and the client proof `M`. -/
structure CreateSessionParams where
  account : Nat
  A : Nat
  M : Nat
  deriving DecidableEq, Repr

/-- `Controller.createSession` (lines 140-194): requires a pending SRP
exchange for the account (`INVALID_CREDENTIALS` if none), applies `A`,
compares the client proof against the derived `M1`
(`INVALID_CREDENTIALS` on mismatch); on match allocates the session with
the negotiated key, appends it to the account's session list, persists
session and account, deletes the pending exchange, marks the device
trusted, and returns the session with the key deleted from the returned
copy only. -/
def createSession (ctx : Context) (st : ServerState) (p : CreateSessionParams) :
    Except ErrorCode Session × ServerState :=
  match lookupKey st.pendingAuths p.account with
  | none => (.error .invalidCredentials, st)
  | some srp =>
    if p.M ≠ srp.M1 p.A then (.error .invalidCredentials, st)
    else
      match lookupKey st.accounts p.account with
      | none => (.error .notFound, st)
      | some acc =>
        let session : Session :=
          { id := st.nextId, account := p.account, device := ctx.device,
            key := some (srp.K p.A) }
        let st := { st with nextId := st.nextId + 1 }
        let acc := { acc with sessions := acc.sessions ++ [session] }
        let st := { st with sessions := upsertKey st.sessions session.id session,
                            accounts := upsertKey st.accounts acc.id acc }
        let st := { st with pendingAuths := removeKey st.pendingAuths p.account }
        match lookupKey st.auths acc.email with
        | none => (.error .notFound, st)
        | some auth =>
          let auth :=
            match ctx.device with
            | some d =>
              if auth.trustedDevices.any (fun td => td.id == d.id) then auth
              else { auth with trustedDevices := auth.trustedDevices ++ [d] }
            | none => auth
          let st := { st with auths := upsertKey st.auths acc.email auth }
          (.ok { session with key := none }, st)

/-- Parameters of `createAccount`: the client-constructed account and
auth records plus the email-verification token. -/
structure CreateAccountParams where
  account : Account
  auth : Auth
  verify : Nat
  deriving DecidableEq, Repr

/-- Mark the context device trusted on an auth record unless it already
is (`auth.trustedDevices.some(...) || push`). -/
def addTrustedDevice (auth : Auth) (device? : Option DeviceInfo) : Auth :=
  match device? with
  | some d =>
    if auth.trustedDevices.any (fun td => td.id == d.id) then auth
    else { auth with trustedDevices := auth.trustedDevices ++ [d] }
  | none => auth

/-- `Controller.createAccount` (lines 211-248): checks (and consumes) the
email-verification token, rejects with `ACCOUNT_EXISTS` when an auth
record already exists under the auth id (the email), assigns fresh
account id and revision, marks the device trusted, provisions the
private vault named "My Vault" owned by the account, links it as
`mainVault`, and persists account, vault and auth. -/
def createAccount (ctx : Context) (st : ServerState) (p : CreateAccountParams) :
    Except ErrorCode Account × ServerState :=
  match checkEmailVerificationToken st p.account.email p.verify with
  | (.error e, st) => (.error e, st)
  | (.ok _, st) =>
    match lookupKey st.auths p.auth.email with
    | some _ => (.error .accountExists, st)
    | none =>
      let accountId := st.nextId
      let revision := st.nextId + 1
      let vaultId := st.nextId + 2
      let st := { st with nextId := st.nextId + 3 }
      let auth := addTrustedDevice { p.auth with account := accountId } ctx.device
      let vault : Vault :=
        { id := vaultId, name := "My Vault", owner := some accountId,
          created := st.now, updated := st.now }
      let account :=
        { p.account with id := accountId, revision := revision, mainVault := vaultId }
      (.ok account,
        { st with accounts := upsertKey st.accounts accountId account,
                  vaults := upsertKey st.vaults vaultId vault,
                  auths := upsertKey st.auths auth.email auth })

/-- The fields of an `Account` submitted to `updateAccount` (the
destructured parameter of the source). -/
structure UpdateAccountParams where
  name : String := ""
  email : String := ""
  publicKey : Nat := 0
  keyParams : Nat := 0
  encryptionParams : Nat := 0
  encryptedData : Nat := 0
  revision : Nat := 0
  deriving DecidableEq, Repr

/-- The loop at the end of `updateAccount` (lines 280-286): on a name
change, load each org the account belongs to and update the denormalized
member name; `org.getMember(account)!` on a non-member is a runtime
`TypeError`, surfaced by the dispatcher as `SERVER_ERROR`. -/
def updateOrgMemberNames (account : Account) :
    ServerState → List Nat → Except ErrorCode Unit × ServerState
  | st, [] => (.ok (), st)
  | st, orgId :: rest =>
    match lookupKey st.orgs orgId with
    | none => (.error .notFound, st)
    | some org =>
      match org.getMember account.id with
      | none => (.error .serverError, st)
      | some _ =>
        let org :=
          { org with members := org.members.map (fun m =>
              if m.id = account.id then { m with name := account.name } else m) }
        updateOrgMemberNames account
          { st with orgs := upsertKey st.orgs org.id org } rest

/-- `Controller.updateAccount` (lines 255-289): requires an authenticated
context, enforces the revision guard against the context account's
revision, regenerates the revision, merges the submitted fields, persists
the account, and propagates a name change into every org membership. -/
def updateAccount (ctx : Context) (st : ServerState) (p : UpdateAccountParams) :
    Except ErrorCode Account × ServerState :=
  match requireAuth ctx with
  | .error e => (.error e, st)
  | .ok (account, _) =>
    if p.revision ≠ account.revision then (.error .outdatedRevision, st)
    else
      let newRevision := st.nextId
      let st := { st with nextId := st.nextId + 1 }
      let nameChanged := account.name ≠ p.name
      let account :=
        { account with revision := newRevision, name := p.name, email := p.email,
                       publicKey := p.publicKey, keyParams := p.keyParams,
                       encryptionParams := p.encryptionParams,
                       encryptedData := p.encryptedData, updated := st.now }
      let st := { st with accounts := upsertKey st.accounts account.id account }
      if nameChanged then
        match updateOrgMemberNames account st account.orgs with
        | (.error e, st) => (.error e, st)
        | (.ok _, st) => (.ok account, st)
      else (.ok account, st)

/-- Parameters of `recoverAccount`. -/
structure RecoverAccountParams where
  account : Account
  auth : Auth
  verify : Nat
  deriving DecidableEq, Repr

/-- Setting the role of an account's membership record to Suspended
(`member.role = OrgRole.Suspended` on the record found by
`org.getMember`). -/
def suspendMemberRole (org : Org) (accId : Nat) : Org :=
  { org with members := org.members.map (fun m =>
      if m.id = accId then { m with role := .suspended } else m) }

/-- The loop of `recoverAccount` over `account.orgs` (lines 326-333):
for every org the account is not the owner of, suspend its membership
and save the org; orgs it owns are left untouched. -/
def suspendOrgMemberships (account : Account) :
    ServerState → List Nat → Except ErrorCode Unit × ServerState
  | st, [] => (.ok (), st)
  | st, orgId :: rest =>
    match lookupKey st.orgs orgId with
    | none => (.error .notFound, st)
    | some org =>
      if org.isOwner account.id then suspendOrgMemberships account st rest
      else
        match org.getMember account.id with
        | none => (.error .serverError, st)
        | some _ =>
          suspendOrgMemberships account
            { st with orgs := upsertKey st.orgs org.id (suspendMemberRole org account.id) }
            rest

/-- `Controller.recoverAccount` (lines 291-339): checks (and consumes)
the email-verification token, loads the auth record and the account,
replaces the account's keys/profile, re-provisions the main vault under
the same id, marks the device trusted on the new auth record, deletes
every session listed on the account, suspends membership in every org
the account does not own, then persists account, auth and vault. -/
def recoverAccount (ctx : Context) (st : ServerState) (p : RecoverAccountParams) :
    Except ErrorCode Account × ServerState :=
  match checkEmailVerificationToken st p.auth.email p.verify with
  | (.error e, st) => (.error e, st)
  | (.ok _, st) =>
    match lookupKey st.auths p.auth.email with
    | none => (.error .notFound, st)
    | some existingAuth =>
      match lookupKey st.accounts existingAuth.account with
      | none => (.error .notFound, st)
      | some account =>
        let account :=
          { account with email := p.account.email, publicKey := p.account.publicKey,
                         keyParams := p.account.keyParams,
                         encryptionParams := p.account.encryptionParams,
                         encryptedData := p.account.encryptedData }
        let mainVault : Vault :=
          { id := account.mainVault, name := "My Vault", owner := some account.id,
            created := st.now, updated := st.now }
        let auth := { p.auth with account := account.id }
        let auth :=
          match ctx.device with
          | some d => { auth with trustedDevices := auth.trustedDevices ++ [d] }
          | none => auth
        let st :=
          { st with sessions := account.sessions.foldl (fun ss s => removeKey ss s.id) st.sessions }
        match suspendOrgMemberships account st account.orgs with
        | (.error e, st) => (.error e, st)
        | (.ok _, st) =>
          (.ok account,
            { st with accounts := upsertKey st.accounts account.id account,
                      auths := upsertKey st.auths auth.email auth,
                      vaults := upsertKey st.vaults mainVault.id mainVault })

/-- The fields of an `Org` submitted to `updateOrg` (the destructured
parameter of the source). -/
structure UpdateOrgParams where
  id : Nat := 0
  name : String := ""
  publicKey : Nat := 0
  keyParams : Nat := 0
  encryptionParams : Nat := 0
  encryptedData : Nat := 0
  signingParams : Nat := 0
  accessors : Nat := 0
  members : List OrgMember := []
  groups : List OrgGroup := []
  vaults : List VaultEntry := []
  invites : List Invite := []
  revision : Nat := 0
  deriving DecidableEq, Repr

/-- The added-invites loop of `updateOrg` (lines 436-456): for each added
invite whose email has no auth record yet, create and save a fresh
email-verification record (its token goes into the invite link); the
notification itself is outside the storage model. -/
def processAddedInvites : ServerState → List Invite → ServerState
  | st, [] => st
  | st, invite :: rest =>
    match lookupKey st.auths invite.email with
    | some _ => processAddedInvites st rest
    | none =>
      let v : EmailVerification :=
        { email := invite.email, code := Nat.repr st.nextId, token := st.nextId }
      processAddedInvites
        { st with nextId := st.nextId + 1,
                  emailVerifications := upsertKey st.emailVerifications invite.email v }
        rest

/-- The removed-members loop of `updateOrg` (lines 459-463): unlink the
org from each removed member's account and save it. -/
def removeMemberAccounts (orgId : Nat) :
    ServerState → List OrgMember → Except ErrorCode Unit × ServerState
  | st, [] => (.ok (), st)
  | st, m :: rest =>
    match lookupKey st.accounts m.id with
    | none => (.error .notFound, st)
    | some acc =>
      let acc := { acc with orgs := acc.orgs.filter (fun i => i ≠ orgId) }
      removeMemberAccounts orgId
        { st with accounts := upsertKey st.accounts acc.id acc } rest

/-- The vault-rename loop of `updateOrg` (lines 466-473): for each entry
of the stored org's vault index whose submitted counterpart carries a
different name, load the vault, rename it and save it. -/
def renameVaults (newVaults : List VaultEntry) :
    ServerState → List VaultEntry → Except ErrorCode Unit × ServerState
  | st, [] => (.ok (), st)
  | st, ve :: rest =>
    match newVaults.find? (fun v => v.id == ve.id) with
    | none => renameVaults newVaults st rest
    | some nv =>
      if nv.name ≠ ve.name then
        match lookupKey st.vaults ve.id with
        | none => (.error .notFound, st)
        | some vault =>
          renameVaults newVaults
            { st with vaults := upsertKey st.vaults vault.id { vault with name := nv.name } }
            rest
      else renameVaults newVaults st rest

/-- The added-members loop of `updateOrg` (lines 504-516): link the org
into each added member's account and save it (the notification is
outside the storage model). -/
def addMemberAccounts (orgId : Nat) :
    ServerState → List OrgMember → Except ErrorCode Unit × ServerState
  | st, [] => (.ok (), st)
  | st, m :: rest =>
    match lookupKey st.accounts m.id with
    | none => (.error .notFound, st)
    | some acc =>
      let acc := { acc with orgs := acc.orgs ++ [orgId] }
      addMemberAccounts orgId
        { st with accounts := upsertKey st.accounts acc.id acc } rest

/-- The membership/invite diff of `updateOrg` against the stored org
(lines 414-427): added members, removed members, added invites, and the
role-change test. -/
def orgAddedMembers (org : Org) (members : List OrgMember) : List OrgMember :=
  members.filter (fun m => !(org.isMember m.id))

def orgRemovedMembers (org : Org) (members : List OrgMember) : List OrgMember :=
  org.members.filter (fun m => !(members.any (fun m2 => m.id == m2.id)))

def orgAddedInvites (org : Org) (invites : List Invite) : List Invite :=
  invites.filter (fun i => (org.getInvite i.id).isNone)

def orgRoleChanged (org : Org) (members : List OrgMember) : Bool :=
  members.any (fun m =>
    match org.getMember m.id with
    | none => true
    | some m0 => m0.role != m.role)

/-- `Controller.updateOrg` (lines 378-524): revision guard, the
admin/owner permission checks (only owners may touch membership), the
invite / removed-member / vault-rename side effects, the member merge,
the owner-only field merge, the member/group quota check, the
added-member side effects, and finally the revision bump and the org
save. -/
def updateOrg (ctx : Context) (st : ServerState) (p : UpdateOrgParams) :
    Except ErrorCode Org × ServerState :=
  match requireAuth ctx with
  | .error e => (.error e, st)
  | .ok (account, _) =>
    match lookupKey st.orgs p.id with
    | none => (.error .notFound, st)
    | some org =>
      if p.revision ≠ org.revision then (.error .outdatedRevision, st)
      else
        let isOwner := org.owner == account.id || org.isOwner account.id
        let isAdmin := isOwner || org.isAdmin account.id
        if ¬ isAdmin then (.error .insufficientPermissions, st)
        else
          let addedMembers := orgAddedMembers org p.members
          let removedMembers := orgRemovedMembers org p.members
          let addedInvites := orgAddedInvites org p.invites
          if ¬ isOwner ∧
              (addedMembers ≠ [] ∨ removedMembers ≠ [] ∨ addedInvites ≠ [] ∨
                orgRoleChanged org p.members) then
            (.error .insufficientPermissions, st)
          else
            let st := processAddedInvites st addedInvites
            match removeMemberAccounts org.id st removedMembers with
            | (.error e, st) => (.error e, st)
            | (.ok _, st) =>
              match renameVaults p.vaults st org.vaults with
              | (.error e, st) => (.error e, st)
              | (.ok _, st) =>
                let org :=
                  { org with members := p.members, groups := p.groups, vaults := p.vaults }
                let org :=
                  if isOwner then
                    { org with name := p.name, publicKey := p.publicKey,
                               keyParams := p.keyParams,
                               encryptionParams := p.encryptionParams,
                               encryptedData := p.encryptedData,
                               signingParams := p.signingParams,
                               accessors := p.accessors, invites := p.invites }
                  else org
                if (org.quota.members ≠ -1 ∧ (p.members.length : Int) > org.quota.members) ∨
                    (org.quota.groups ≠ -1 ∧ (p.groups.length : Int) > org.quota.groups) then
                  (.error .quotaExceeded, st)
                else
                  match addMemberAccounts org.id st addedMembers with
                  | (.error e, st) => (.error e, st)
                  | (.ok _, st) =>
                    let org := { org with revision := st.nextId }
                    let st := { st with nextId := st.nextId + 1 }
                    (.ok org, { st with orgs := upsertKey st.orgs org.id org })

/-- `Controller.getVault` (lines 526-539): load the vault, load its org
when it has one; unauthorized readers (and non-owners of private vaults)
get `NOT_FOUND` --- existence is not disclosed. -/
def getVault (ctx : Context) (st : ServerState) (id : Nat) :
    Except ErrorCode Vault × ServerState :=
  match requireAuth ctx with
  | .error e => (.error e, st)
  | .ok (account, _) =>
    match lookupKey st.vaults id with
    | none => (.error .notFound, st)
    | some vault =>
      match vault.org with
      | some orgRef =>
        match lookupKey st.orgs orgRef.id with
        | none => (.error .notFound, st)
        | some org =>
          if ¬ org.canRead vault account.id then (.error .notFound, st)
          else (.ok vault, st)
      | none =>
        if vault.owner ≠ some account.id then (.error .notFound, st)
        else (.ok vault, st)

/-- The fields of a `Vault` submitted to `updateVault` (the destructured
parameter of the source). -/
structure UpdateVaultParams where
  id : Nat := 0
  keyParams : Nat := 0
  encryptionParams : Nat := 0
  accessors : Nat := 0
  encryptedData : Nat := 0
  revision : Nat := 0
  deriving DecidableEq, Repr

/-- `Controller.updateVault` (lines 541-575): the read check (failing
`NOT_FOUND`), then the write check (failing `INSUFFICIENT_PERMISSIONS`),
then the revision guard, then the revision bump, field merge and
save. -/
def updateVault (ctx : Context) (st : ServerState) (p : UpdateVaultParams) :
    Except ErrorCode Vault × ServerState :=
  match requireAuth ctx with
  | .error e => (.error e, st)
  | .ok (account, _) =>
    match lookupKey st.vaults p.id with
    | none => (.error .notFound, st)
    | some vault =>
      match vault.org with
      | some orgRef =>
        match lookupKey st.orgs orgRef.id with
        | none => (.error .notFound, st)
        | some org =>
          if ¬ org.canRead vault account.id then (.error .notFound, st)
          else if ¬ org.canWrite vault account.id then (.error .insufficientPermissions, st)
          else if p.revision ≠ vault.revision then (.error .outdatedRevision, st)
          else
            let vault :=
              { vault with revision := st.nextId, keyParams := p.keyParams,
                           encryptionParams := p.encryptionParams,
                           accessors := p.accessors, encryptedData := p.encryptedData,
                           updated := st.now }
            (.ok vault,
              { st with nextId := st.nextId + 1,
                        vaults := upsertKey st.vaults vault.id vault })
      | none =>
        if vault.owner ≠ some account.id then (.error .notFound, st)
        else if p.revision ≠ vault.revision then (.error .outdatedRevision, st)
        else
          let vault :=
            { vault with revision := st.nextId, keyParams := p.keyParams,
                         encryptionParams := p.encryptionParams,
                         accessors := p.accessors, encryptedData := p.encryptedData,
                         updated := st.now }
          (.ok vault,
            { st with nextId := st.nextId + 1,
                      vaults := upsertKey st.vaults vault.id vault })

/-- `Controller.createVault` (lines 577-612): org vaults only
(`BAD_REQUEST` otherwise); only org admins may create; assigns fresh
vault id and revision, sets the creating account as `owner` while
keeping the `org` reference, appends the vault to the org index, bumps
the org revision, checks the org vault quota, then saves vault and
org. -/
def createVault (ctx : Context) (st : ServerState) (vault : Vault) :
    Except ErrorCode Vault × ServerState :=
  match requireAuth ctx with
  | .error e => (.error e, st)
  | .ok (account, _) =>
    match vault.org with
    | none => (.error .badRequest, st)
    | some orgRef =>
      match lookupKey st.orgs orgRef.id with
      | none => (.error .notFound, st)
      | some org =>
        if ¬ org.isAdmin account.id then (.error .insufficientPermissions, st)
        else
          let vault :=
            { vault with id := st.nextId, owner := some account.id,
                         created := st.now, updated := st.now,
                         revision := st.nextId + 1 }
          let org :=
            { org with vaults := org.vaults ++ [{ id := vault.id, name := vault.name }],
                       revision := st.nextId + 2 }
          let st := { st with nextId := st.nextId + 3 }
          if org.quota.vaults ≠ -1 ∧ (org.vaults.length : Int) > org.quota.vaults then
            (.error .quotaExceeded, st)
          else
            (.ok vault,
              { st with vaults := upsertKey st.vaults vault.id vault,
                        orgs := upsertKey st.orgs org.id org })

/-- Total size of the attachments stored for a vault
(`attachmentStorage.getUsage`). -/
def attachmentUsage (st : ServerState) (vaultId : Nat) : Nat :=
  (st.attachments.filter (fun a => a.1.1 == vaultId)).foldl (fun sum a => sum + a.2.size) 0

/-- `Controller.createAttachment` (lines 707-737): write access required
(`INSUFFICIENT_PERMISSIONS`), fresh id assigned, storage usage summed
over the owning scope (all org vaults, or the single private vault) and
checked against the scope's storage quota (gigabytes), then the
attachment is stored. -/
def createAttachment (ctx : Context) (st : ServerState) (att : Attachment) :
    Except ErrorCode Attachment × ServerState :=
  match requireAuth ctx with
  | .error e => (.error e, st)
  | .ok (account, _) =>
    match lookupKey st.vaults att.vault with
    | none => (.error .notFound, st)
    | some vault =>
      match vault.org with
      | some orgRef =>
        match lookupKey st.orgs orgRef.id with
        | none => (.error .notFound, st)
        | some org =>
          if ¬ org.canWrite vault account.id then (.error .insufficientPermissions, st)
          else
            let att := { att with id := st.nextId }
            let st := { st with nextId := st.nextId + 1 }
            let currentUsage :=
              (org.vaults.map (fun ve => attachmentUsage st ve.id)).foldl (· + ·) 0
            if org.quota.storage ≠ -1 ∧
                ((currentUsage + att.size : Nat) : Int) > org.quota.storage * 1000000000 then
              (.error .quotaExceeded, st)
            else
              (.ok att,
                { st with attachments := upsertKey st.attachments (att.vault, att.id) att })
      | none =>
        if vault.owner ≠ some account.id then (.error .insufficientPermissions, st)
        else
          let att := { att with id := st.nextId }
          let st := { st with nextId := st.nextId + 1 }
          let currentUsage := attachmentUsage st vault.id
          if account.quota.storage ≠ -1 ∧
              ((currentUsage + att.size : Nat) : Int) > account.quota.storage * 1000000000 then
            (.error .quotaExceeded, st)
          else
            (.ok att,
              { st with attachments := upsertKey st.attachments (att.vault, att.id) att })

/-- `Controller.getAttachment` (lines 739-754): read access required,
failing `INSUFFICIENT_PERMISSIONS` (not `NOT_FOUND`); then the blob is
fetched from the attachment port. -/
def getAttachment (ctx : Context) (st : ServerState) (vaultId attId : Nat) :
    Except ErrorCode Attachment × ServerState :=
  match requireAuth ctx with
  | .error e => (.error e, st)
  | .ok (account, _) =>
    match lookupKey st.vaults vaultId with
    | none => (.error .notFound, st)
    | some vault =>
      let allowedCheck : Except ErrorCode Unit :=
        match vault.org with
        | some orgRef =>
          match lookupKey st.orgs orgRef.id with
          | none => .error .notFound
          | some org =>
            if org.canRead vault account.id then .ok () else .error .insufficientPermissions
        | none =>
          if vault.owner = some account.id then .ok () else .error .insufficientPermissions
      match allowedCheck with
      | .error e => (.error e, st)
      | .ok _ =>
        match lookupKey st.attachments (vaultId, attId) with
        | none => (.error .notFound, st)
        | some att => (.ok att, st)

/-- `Controller.deleteAttachment` (lines 756-769): write access required,
failing `INSUFFICIENT_PERMISSIONS`; then the blob is deleted. -/
def deleteAttachment (ctx : Context) (st : ServerState) (vaultId attId : Nat) :
    Except ErrorCode Unit × ServerState :=
  match requireAuth ctx with
  | .error e => (.error e, st)
  | .ok (account, _) =>
    match lookupKey st.vaults vaultId with
    | none => (.error .notFound, st)
    | some vault =>
      let allowedCheck : Except ErrorCode Unit :=
        match vault.org with
        | some orgRef =>
          match lookupKey st.orgs orgRef.id with
          | none => .error .notFound
          | some org =>
            if org.canWrite vault account.id then .ok () else .error .insufficientPermissions
        | none =>
          if vault.owner = some account.id then .ok () else .error .insufficientPermissions
      match allowedCheck with
      | .error e => (.error e, st)
      | .ok _ =>
        (.ok (), { st with attachments := removeKey st.attachments (vaultId, attId) })

/-! ### Association-list lemmas -/

theorem lookupKey_upsertKey_self {κ α : Type} [DecidableEq κ]
    (l : List (κ × α)) (k : κ) (a : α) :
    lookupKey (upsertKey l k a) k = some a := by
  induction l with
  | nil => simp [upsertKey, lookupKey]
  | cons p rest ih =>
    by_cases h : p.1 = k
    · simp [upsertKey, lookupKey, h]
    · simp [upsertKey, lookupKey, h, ih]

theorem lookupKey_upsertKey_ne {κ α : Type} [DecidableEq κ]
    (l : List (κ × α)) (k k2 : κ) (a : α) (hne : k2 ≠ k) :
    lookupKey (upsertKey l k a) k2 = lookupKey l k2 := by
  have hkk : k ≠ k2 := fun h => hne h.symm
  induction l with
  | nil => simp [upsertKey, lookupKey, hkk]
  | cons p rest ih =>
    by_cases h : p.1 = k
    · simp [upsertKey, lookupKey, h, hkk]
    · by_cases h2 : p.1 = k2
      · simp [upsertKey, lookupKey, h, h2, hne]
      · simp [upsertKey, lookupKey, h, h2, ih]

theorem lookupKey_upsertKey_isSome {κ α : Type} [DecidableEq κ]
    (l : List (κ × α)) (k k2 : κ) (a : α) (h : (lookupKey l k2).isSome) :
    (lookupKey (upsertKey l k a) k2).isSome := by
  by_cases hk : k2 = k
  · subst hk; simp [lookupKey_upsertKey_self]
  · rwa [lookupKey_upsertKey_ne l k k2 a hk]

theorem lookupKey_removeKey_self {κ α : Type} [DecidableEq κ]
    (l : List (κ × α)) (k : κ) :
    lookupKey (removeKey l k) k = none := by
  induction l with
  | nil => simp [removeKey, lookupKey]
  | cons p rest ih =>
    by_cases h : p.1 = k
    · simp [removeKey, h, ih]
    · simp [removeKey, lookupKey, h, ih]

theorem lookupKey_removeKey_ne {κ α : Type} [DecidableEq κ]
    (l : List (κ × α)) (k k2 : κ) (hne : k2 ≠ k) :
    lookupKey (removeKey l k) k2 = lookupKey l k2 := by
  have hkk : k ≠ k2 := fun h => hne h.symm
  induction l with
  | nil => simp [removeKey]
  | cons p rest ih =>
    by_cases h : p.1 = k
    · simp [removeKey, lookupKey, h, hkk, ih]
    · by_cases h2 : p.1 = k2
      · simp [removeKey, lookupKey, h, h2, hne]
      · simp [removeKey, lookupKey, h, h2, ih]

theorem lookupKey_removeKey_none {κ α : Type} [DecidableEq κ]
    (l : List (κ × α)) (k k2 : κ) (h : lookupKey l k2 = none) :
    lookupKey (removeKey l k) k2 = none := by
  by_cases hk : k2 = k
  · rw [hk]; exact lookupKey_removeKey_self l k
  · rwa [lookupKey_removeKey_ne l k k2 hk]

/-- A key absent from the session store stays absent through any sequence
of removals. -/
theorem foldl_removeKey_preserves_none (l : List Session)
    (ss : List (Nat × Session)) (k : Nat) (h : lookupKey ss k = none) :
    lookupKey (l.foldl (fun ss s => removeKey ss s.id) ss) k = none := by
  induction l generalizing ss with
  | nil => simpa
  | cons s rest ih =>
    simp only [List.foldl_cons]
    exact ih _ (lookupKey_removeKey_none _ _ _ h)

/-- The `recoverAccount` bulk revoke: a session id listed in `l` is
absent from the store afterwards. -/
theorem removeSessions_lookup_none (l : List Session)
    (ss : List (Nat × Session)) (k : Nat) (h : ∃ s ∈ l, s.id = k) :
    lookupKey (l.foldl (fun ss s => removeKey ss s.id) ss) k = none := by
  induction l generalizing ss with
  | nil => simp at h
  | cons s rest ih =>
    simp only [List.foldl_cons]
    by_cases hs : s.id = k
    · apply foldl_removeKey_preserves_none
      rw [← hs]
      exact lookupKey_removeKey_self ss s.id
    · rcases h with ⟨s0, hmem, hid⟩
      rcases List.mem_cons.mp hmem with h0 | h0
      · exact absurd (h0 ▸ hid) hs
      · exact ih _ ⟨s0, h0, hid⟩

/-! ### C1: the un-awaited verification check in `initAuth` -/

/-- A state with an email-verification record (token 7) for `a@x` and no
auth record. -/
def c1State : ServerState :=
  { emailVerifications := [("a@x", { email := "a@x", code := "c", token := 7 })] }

/-- The same state plus an auth record for `a@x` whose trusted-device
list is empty (so the requesting device is untrusted). -/
def c1StateWithAuth : ServerState :=
  { emailVerifications := [("a@x", { email := "a@x", code := "c", token := 7 })],
    auths := [("a@x", { email := "a@x", account := 10, verifier := 3 })] }

/-- An anonymous request context from device 1. -/
def c1Ctx : Context := { device := some ⟨1⟩ }

/-- C1: `initAuth` from an untrusted device with no token does fail
`EMAIL_VERIFICATION_REQUIRED`, but a MISMATCHED token does not stop the
call: the source invokes `_checkEmailVerificationToken` without `await`
(server.ts line 104), so its `EMAIL_VERIFICATION_FAILED` rejection is
discarded and the call proceeds --- against a missing auth record it
raises `NOT_FOUND` on an unchecked verification (leaking account
non-existence), and against an existing auth record it even starts the
SRP exchange and answers `ok`.  This contradicts the code's own comment
("The user has successfully verified their email address so it's safe
...") and the claim. -/
theorem initAuth_discards_failed_token_check :
    initAuth c1Ctx c1State "a@x" none = (.error .emailVerificationRequired, c1State) ∧
    initAuth c1Ctx c1State "a@x" (some 9) = (.error .notFound, c1State) ∧
    (initAuth c1Ctx c1StateWithAuth "a@x" (some 9)).1 =
      .ok { auth := { email := "a@x", account := 10, verifier := 3 }, B := 10003 } :=
  ⟨rfl, rfl, rfl⟩

/-! ### C3: `createSession` persists the session secret on the account -/

/-- A pending SRP exchange for account 10. -/
def c3Srp : SRPServer := { verifier := 3, b := 50 }

/-- A state mid-login: account 10 exists with an empty session list, its
auth record exists, and the SRP exchange is pending. -/
def c3State : ServerState :=
  { pendingAuths := [(10, c3Srp)],
    accounts := [(10, { id := 10, email := "a@x" })],
    auths := [("a@x", { email := "a@x", account := 10, verifier := 3 })] }

/-- The login completion call with the correct proof for `A = 4`. -/
def c3Params : CreateSessionParams := { account := 10, A := 4, M := c3Srp.M1 4 }

/-- C3: after a successful `createSession`, the returned session has its
key stripped, but the Account record persisted by the same call carries
the full session INCLUDING the negotiated secret key: the source pushes
the full `session` object into `acc.sessions` and saves the account
(lines 171-174) before `delete session.key` (line 191), which only
affects the returned copy.  (Contrast `_authenticate`, line 920-922,
which upserts `session.info`.) -/
theorem createSession_persists_secret_key :
    (createSession c1Ctx c3State c3Params).1 =
      .ok { id := 100, account := 10, device := some ⟨1⟩, key := none } ∧
    (lookupKey (createSession c1Ctx c3State c3Params).2.accounts 10).map
        (fun acc => acc.sessions.map Session.key) = some [some (c3Srp.K 4)] :=
  ⟨rfl, rfl⟩

/-! ### C4: org vaults are persisted with both `owner` and `org` set -/

/-- An org (id 5) owned by account 1 with account 2 as admin. -/
def c4Org : Org :=
  { id := 5, owner := 1, revision := 9,
    members := [{ id := 1, role := .owner }, { id := 2, role := .admin }] }

def c4State : ServerState := { orgs := [(5, c4Org)] }

/-- Admin (account 2) context with an authenticated session. -/
def c4Ctx : Context :=
  { account := some { id := 2, email := "b@x" },
    session := some { id := 77, account := 2 } }

/-- The vault account 2 submits to `createVault` for org 5. -/
def c4Vault : Vault := { name := "V", org := some ⟨5⟩ }

/-- The vault as the call persists it. -/
def c4Result : Vault :=
  { id := 100, name := "V", owner := some 2, org := some ⟨5⟩, revision := 101 }

/-- C4 counterexample: `createVault` sets `vault.owner = account.id`
(line 595) while keeping the `org` reference, so the persisted org vault
has BOTH `owner` and `org` set --- refuting "exactly one of `owner` or
`org`, never both". -/
theorem createVault_persists_owner_and_org :
    (createVault c4Ctx c4State c4Vault).1 = .ok c4Result ∧
    lookupKey (createVault c4Ctx c4State c4Vault).2.vaults 100 = some c4Result ∧
    c4Result.owner = some 2 ∧ c4Result.org = some ⟨5⟩ :=
  ⟨rfl, rfl, rfl, rfl⟩

/-! ### C8: the email-verification code flow -/

/-- A fresh verification record for `b@x`: code `secret`, token 7, no
tries yet. -/
def c8State : ServerState :=
  { emailVerifications := [("b@x", { email := "b@x", code := "secret", token := 7 })] }

/-- One wrong-code submission. -/
def c8Wrong (st : ServerState) : ServerState :=
  (completeEmailVerification st "b@x" "bad").2

/-- The state after five wrong codes in a row. -/
def c8After5 : ServerState :=
  c8Wrong (c8Wrong (c8Wrong (c8Wrong (c8Wrong c8State))))

/-- C8 counterexample: five wrong codes in a row do NOT destroy the
record (the source destroys it only when `tries > 5`, i.e. on the sixth
wrong code), and a correct code afterwards still succeeds --- and a
correct code never deletes the record (the record survives unchanged;
deletion happens only when the token is later consumed). -/
theorem emailVerification_five_wrong_codes_counterexample :
    (completeEmailVerification c8State "b@x" "bad").1 = .error .emailVerificationFailed ∧
    lookupKey c8After5.emailVerifications "b@x" =
      some { email := "b@x", code := "secret", token := 7, tries := 5 } ∧
    (completeEmailVerification c8After5 "b@x" "SECRET").1 = .ok 7 ∧
    (completeEmailVerification c8After5 "b@x" "SECRET").2 = c8After5 :=
  ⟨rfl, rfl, rfl, rfl⟩

/-! ### C2: the `createSession` success condition -/

/-- C2: `createSession` fails `INVALID_CREDENTIALS` (leaving the state
untouched) when no pending SRP exchange exists for the account id or
when the supplied proof differs from the proof the exchange derives;
with a pending exchange and the matching proof (and the account and its
auth record present in storage) it succeeds, the returned session has no
key, the pending exchange is consumed, and a replay of the same call
therefore fails `INVALID_CREDENTIALS`. -/
theorem createSession_success_iff (ctx : Context) (st : ServerState) (p : CreateSessionParams) :
    (lookupKey st.pendingAuths p.account = none →
      createSession ctx st p = (.error .invalidCredentials, st)) ∧
    (∀ srp, lookupKey st.pendingAuths p.account = some srp → p.M ≠ srp.M1 p.A →
      createSession ctx st p = (.error .invalidCredentials, st)) ∧
    (∀ srp acc, lookupKey st.pendingAuths p.account = some srp → p.M = srp.M1 p.A →
      lookupKey st.accounts p.account = some acc →
      (lookupKey st.auths acc.email).isSome →
      ∃ s st2, createSession ctx st p = (.ok s, st2) ∧ s.key = none ∧
        lookupKey st2.pendingAuths p.account = none ∧
        createSession ctx st2 p = (.error .invalidCredentials, st2)) := by
  refine ⟨?_, ?_, ?_⟩
  · intro h
    simp only [createSession, h]
  · intro srp h hM
    simp only [createSession, h]
    rw [if_pos hM]
  · intro srp acc h hM hacc hsome
    obtain ⟨auth, hauth⟩ := Option.isSome_iff_exists.mp hsome
    simp only [createSession, h, hacc]
    rw [if_neg (fun hc => hc hM)]
    simp only [hauth]
    refine ⟨_, _, rfl, rfl, ?_, ?_⟩
    · exact lookupKey_removeKey_self st.pendingAuths p.account
    · simp only [createSession, lookupKey_removeKey_self st.pendingAuths p.account]

/-- Pending exchange for the C2 witness. -/
def c2Srp : SRPServer := { verifier := 3, b := 60 }

def c2Acc : Account := { id := 11, email := "c@x" }

def c2State : ServerState :=
  { pendingAuths := [(11, c2Srp)],
    accounts := [(11, c2Acc)],
    auths := [("c@x", { email := "c@x", account := 11, verifier := 3 })] }

def c2Params : CreateSessionParams := { account := 11, A := 4, M := c2Srp.M1 4 }

def c2BadParams : CreateSessionParams := { account := 11, A := 4, M := 0 }

/-- Witness for `createSession_success_iff`: all three parts at concrete
inputs --- no pending exchange, a wrong proof, and a full success. -/
theorem createSession_success_iff_witness :
    createSession { } { } c2Params = (.error .invalidCredentials, { }) ∧
    createSession { } c2State c2BadParams = (.error .invalidCredentials, c2State) ∧
    ∃ s st2, createSession { } c2State c2Params = (.ok s, st2) ∧ s.key = none ∧
      lookupKey st2.pendingAuths c2Params.account = none ∧
      createSession { } st2 c2Params = (.error .invalidCredentials, st2) :=
  ⟨(createSession_success_iff { } { } c2Params).1 rfl,
   (createSession_success_iff { } c2State c2BadParams).2.1 c2Srp rfl (by decide),
   (createSession_success_iff { } c2State c2Params).2.2 c2Srp c2Acc rfl rfl rfl (by decide)⟩

/-! ### C10: attachment operations fail closed with INSUFFICIENT_PERMISSIONS -/

/-- C10: for an authenticated caller lacking the required capability on
an existing vault, `createAttachment`, `getAttachment` and
`deleteAttachment` fail `INSUFFICIENT_PERMISSIONS` --- while `getVault`
on the very same state masks the permission failure as `NOT_FOUND`; the
attachment operations therefore disclose the vault's existence. -/
theorem attachment_acl_error_codes (ctx : Context) (st : ServerState)
    (acc : Account) (sess : Session) (vaultId attId : Nat) (vault : Vault) (att : Attachment)
    (hctxa : ctx.account = some acc) (hctxs : ctx.session = some sess)
    (hv : lookupKey st.vaults vaultId = some vault)
    (hattv : att.vault = vaultId) :
    (∀ orgRef org, vault.org = some orgRef → lookupKey st.orgs orgRef.id = some org →
      (org.canRead vault acc.id = false →
        getAttachment ctx st vaultId attId = (.error .insufficientPermissions, st) ∧
        getVault ctx st vaultId = (.error .notFound, st)) ∧
      (org.canWrite vault acc.id = false →
        createAttachment ctx st att = (.error .insufficientPermissions, st) ∧
        deleteAttachment ctx st vaultId attId = (.error .insufficientPermissions, st))) ∧
    (vault.org = none → vault.owner ≠ some acc.id →
      getAttachment ctx st vaultId attId = (.error .insufficientPermissions, st) ∧
      getVault ctx st vaultId = (.error .notFound, st) ∧
      createAttachment ctx st att = (.error .insufficientPermissions, st) ∧
      deleteAttachment ctx st vaultId attId = (.error .insufficientPermissions, st)) := by
  constructor
  · intro orgRef org horg ho
    constructor
    · intro hcr
      constructor
      · simp only [getAttachment, requireAuth, hctxa, hctxs, hv, horg, ho, hcr]
        simp
      · simp only [getVault, requireAuth, hctxa, hctxs, hv, horg, ho, hcr]
        simp
    · intro hcw
      constructor
      · simp only [createAttachment, requireAuth, hctxa, hctxs, hattv, hv, horg, ho, hcw]
        simp
      · simp only [deleteAttachment, requireAuth, hctxa, hctxs, hv, horg, ho, hcw]
        simp
  · intro horg how
    refine ⟨?_, ?_, ?_, ?_⟩
    · simp only [getAttachment, requireAuth, hctxa, hctxs, hv, horg]
      rw [if_neg ?_]
      intro hc
      exact how hc
    · simp only [getVault, requireAuth, hctxa, hctxs, hv, horg]
      rw [if_pos how]
    · simp only [createAttachment, requireAuth, hctxa, hctxs, hattv, hv, horg]
      rw [if_pos how]
    · simp only [deleteAttachment, requireAuth, hctxa, hctxs, hv, horg]
      rw [if_neg ?_]
      intro hc
      exact how hc

/-- C10 witness setup: org 5 owned by account 1, with account 3 a plain
member holding no vault assignments; vault 20 belongs to the org, vault
8 is account 1's private vault. -/
def c10Org : Org :=
  { id := 5, owner := 1, revision := 1,
    members := [{ id := 1, role := .owner }, { id := 3, role := .member }] }

def c10Vault : Vault := { id := 20, org := some ⟨5⟩ }

def c10PrivVault : Vault := { id := 8, owner := some 1 }

def c10State : ServerState :=
  { orgs := [(5, c10Org)], vaults := [(20, c10Vault), (8, c10PrivVault)] }

def c10Acc : Account := { id := 3, email := "m@x" }

def c10Sess : Session := { id := 70, account := 3 }

def c10Ctx : Context := { account := some c10Acc, session := some c10Sess }

/-- Witness for `attachment_acl_error_codes`: account 3 (an unassigned
member of org 5, and a stranger to private vault 8) gets
`INSUFFICIENT_PERMISSIONS` from the attachment operations but
`NOT_FOUND` from `getVault`, in both the org-vault and the private-vault
case. -/
theorem attachment_acl_error_codes_witness :
    (getAttachment c10Ctx c10State 20 33 = (.error .insufficientPermissions, c10State) ∧
      getVault c10Ctx c10State 20 = (.error .notFound, c10State)) ∧
    (createAttachment c10Ctx c10State { vault := 20 } =
        (.error .insufficientPermissions, c10State) ∧
      deleteAttachment c10Ctx c10State 20 33 = (.error .insufficientPermissions, c10State)) ∧
    (getAttachment c10Ctx c10State 8 33 = (.error .insufficientPermissions, c10State) ∧
      getVault c10Ctx c10State 8 = (.error .notFound, c10State) ∧
      createAttachment c10Ctx c10State { vault := 8 } =
        (.error .insufficientPermissions, c10State) ∧
      deleteAttachment c10Ctx c10State 8 33 = (.error .insufficientPermissions, c10State)) := by
  have h := attachment_acl_error_codes c10Ctx c10State c10Acc c10Sess 20 33 c10Vault
    { vault := 20 } rfl rfl rfl rfl
  have h2 := attachment_acl_error_codes c10Ctx c10State c10Acc c10Sess 8 33 c10PrivVault
    { vault := 8 } rfl rfl rfl rfl
  exact ⟨(h.1 ⟨5⟩ c10Org rfl rfl).1 (by decide),
         (h.1 ⟨5⟩ c10Org rfl rfl).2 (by decide),
         h2.2 rfl (by decide)⟩

/-! ### C6: only owners may touch org membership -/

/-- Role-based owner status implies role-based admin status, so a
non-admin is in particular not a role-based owner. -/
theorem Org.isOwner_false_of_isAdmin_false (o : Org) (a : Nat)
    (h : o.isAdmin a = false) : o.isOwner a = false := by
  unfold Org.isOwner Org.isAdmin at *
  cases hm : o.getMember a with
  | none => rfl
  | some m =>
    rw [hm] at h
    simp only [Bool.or_eq_false_iff] at h
    exact h.1

/-- C6: in `updateOrg`, under a matching revision, an authenticated
admin who is not the owner fails `INSUFFICIENT_PERMISSIONS` whenever the
membership diff against the stored org (added members, removed members,
added invites, or any role change) is non-empty; and a caller who is
neither admin nor owner fails `INSUFFICIENT_PERMISSIONS` for any
update. -/
theorem updateOrg_membership_authorization (ctx : Context) (st : ServerState)
    (p : UpdateOrgParams) (acc : Account) (sess : Session) (org : Org) (m : OrgMember)
    (hctxa : ctx.account = some acc) (hctxs : ctx.session = some sess)
    (ho : lookupKey st.orgs p.id = some org)
    (hrev : p.revision = org.revision)
    (hown : org.owner ≠ acc.id) :
    (org.getMember acc.id = some m → m.role = .admin →
      (orgAddedMembers org p.members ≠ [] ∨ orgRemovedMembers org p.members ≠ [] ∨
        orgAddedInvites org p.invites ≠ [] ∨ orgRoleChanged org p.members = true) →
      updateOrg ctx st p = (.error .insufficientPermissions, st)) ∧
    (org.isAdmin acc.id = false →
      updateOrg ctx st p = (.error .insufficientPermissions, st)) := by
  constructor
  · intro hmem hrole hdiff
    have hOwnerB : (org.owner == acc.id || org.isOwner acc.id) = false := by
      simp [Org.isOwner, hmem, hrole, hown]
    have hAdminB : org.isAdmin acc.id = true := by
      simp [Org.isAdmin, hmem, hrole]
    simp only [updateOrg, requireAuth, hctxa, hctxs, ho]
    rw [if_neg (fun hc => hc hrev)]
    simp only [hOwnerB, hAdminB, Bool.false_or, Bool.or_false]
    rw [if_neg (by simp)]
    rw [if_pos ⟨by simp, hdiff⟩]
  · intro hnadm
    have hOwnerB : (org.owner == acc.id || org.isOwner acc.id) = false := by
      simp [Org.isOwner_false_of_isAdmin_false org acc.id hnadm, hown]
    simp only [updateOrg, requireAuth, hctxa, hctxs, ho]
    rw [if_neg (fun hc => hc hrev)]
    simp only [hOwnerB, hnadm, Bool.or_false]
    rw [if_pos (by simp)]

/-- C6 witness setup: org 5 owned by account 1, admin 2, member 3. -/
def c6Org : Org :=
  { id := 5, owner := 1, revision := 9,
    members := [{ id := 1, role := .owner }, { id := 2, role := .admin },
                { id := 3, role := .member }] }

def c6State : ServerState := { orgs := [(5, c6Org)] }

def c6AdminCtx : Context :=
  { account := some { id := 2, email := "adm@x" }, session := some { id := 71, account := 2 } }

def c6MemberCtx : Context :=
  { account := some { id := 3, email := "mem@x" }, session := some { id := 72, account := 3 } }

/-- An update that tries to add account 4 as a member. -/
def c6AddMemberParams : UpdateOrgParams :=
  { id := 5, revision := 9, members := c6Org.members ++ [{ id := 4 }] }

/-- An update with no membership changes at all. -/
def c6PlainParams : UpdateOrgParams := { id := 5, revision := 9, members := c6Org.members }

/-- Witness for `updateOrg_membership_authorization`: the admin (account
2) adding a member fails, and the plain member (account 3) fails for any
update. -/
theorem updateOrg_membership_authorization_witness :
    updateOrg c6AdminCtx c6State c6AddMemberParams =
      (.error .insufficientPermissions, c6State) ∧
    updateOrg c6MemberCtx c6State c6PlainParams =
      (.error .insufficientPermissions, c6State) :=
  ⟨(updateOrg_membership_authorization c6AdminCtx c6State c6AddMemberParams
      { id := 2, email := "adm@x" } { id := 71, account := 2 } c6Org { id := 2, role := .admin }
      rfl rfl rfl rfl (by decide)).1 (by decide) rfl (.inl (by decide)),
   (updateOrg_membership_authorization c6MemberCtx c6State c6PlainParams
      { id := 3, email := "mem@x" } { id := 72, account := 3 } c6Org { id := 3 }
      rfl rfl rfl rfl (by decide)).2 (by decide)⟩

/-- C4 (amended): every vault persisted by `createAccount` has `owner`
set and `org` unset, while every vault persisted by `createVault` has
its `org` reference set AND `owner` set to the creating admin's account
id --- so persisted vaults always have at least one of the two set, but
org vaults persistently carry both. -/
theorem vault_owner_org_fields (ctx : Context) (st : ServerState) :
    (∀ p ev, lookupKey st.emailVerifications p.account.email = some ev →
      ev.token = p.verify →
      lookupKey st.auths p.auth.email = none →
      ∃ acc st2 v, createAccount ctx st p = (.ok acc, st2) ∧
        lookupKey st2.vaults acc.mainVault = some v ∧
        v.owner = some acc.id ∧ v.org = none) ∧
    (∀ vault orgRef org acc sess,
      ctx.account = some acc → ctx.session = some sess →
      vault.org = some orgRef → lookupKey st.orgs orgRef.id = some org →
      org.isAdmin acc.id = true →
      (org.quota.vaults = -1 ∨ ((org.vaults.length : Int) + 1 ≤ org.quota.vaults)) →
      ∃ v st2, createVault ctx st vault = (.ok v, st2) ∧
        v.org = some orgRef ∧ v.owner = some acc.id ∧
        lookupKey st2.vaults v.id = some v) := by
  constructor
  · intro p ev hev htok hauth
    simp only [createAccount, checkEmailVerificationToken, hev]
    rw [if_neg (fun hc => hc htok)]
    simp only [hauth]
    exact ⟨_, _, _, rfl, lookupKey_upsertKey_self _ _ _, rfl, rfl⟩
  · intro vault orgRef org acc sess hctxa hctxs hvo ho hadm hquota
    simp only [createVault, requireAuth, hctxa, hctxs, hvo, ho, hadm]
    rw [if_neg (by simp)]
    rw [if_neg ?_]
    · exact ⟨_, _, rfl, rfl, rfl, lookupKey_upsertKey_self _ _ _⟩
    · rintro ⟨hne, hgt⟩
      rcases hquota with h | h
      · exact hne h
      · simp only [List.length_append, List.length_cons, List.length_nil] at hgt
        push_cast at hgt h
        omega

/-- Signup state for the C4 witness: a consumed-able verification record
for `n@x` and no existing auth record. -/
def c4SignupState : ServerState :=
  { emailVerifications := [("n@x", { email := "n@x", code := "c", token := 7 })] }

def c4SignupParams : CreateAccountParams :=
  { account := { email := "n@x" }, auth := { email := "n@x" }, verify := 7 }

/-- Witness for `vault_owner_org_fields`: a concrete signup and a
concrete org-vault creation. -/
theorem vault_owner_org_fields_witness :
    (∃ acc st2 v, createAccount { } c4SignupState c4SignupParams = (.ok acc, st2) ∧
      lookupKey st2.vaults acc.mainVault = some v ∧
      v.owner = some acc.id ∧ v.org = none) ∧
    (∃ v st2, createVault c4Ctx c4State c4Vault = (.ok v, st2) ∧
      v.org = some ⟨5⟩ ∧ v.owner = some 2 ∧
      lookupKey st2.vaults v.id = some v) :=
  ⟨(vault_owner_org_fields { } c4SignupState).1 c4SignupParams
      { email := "n@x", code := "c", token := 7 } rfl rfl rfl,
   (vault_owner_org_fields c4Ctx c4State).2 c4Vault ⟨5⟩ c4Org
      { id := 2, email := "b@x" } { id := 77, account := 2 }
      rfl rfl rfl rfl (by decide) (.inl rfl)⟩

/-- C8 (amended): `completeEmailVerification` against a missing record
fails `EMAIL_VERIFICATION_REQUIRED`; a wrong code bumps `tries` and
fails `EMAIL_VERIFICATION_FAILED` while the bumped count stays within 5,
while the sixth consecutive wrong code (bumped count 6 > 5) destroys the
record and fails `EMAIL_VERIFICATION_TRIES_EXCEEDED` (after which any
attempt falls under the missing-record case); a correct code returns the
stored token and leaves the record in place. -/
theorem emailVerification_code_flow (st : ServerState) (email code : String) :
    (lookupKey st.emailVerifications email = none →
      completeEmailVerification st email code = (.error .emailVerificationRequired, st)) ∧
    (∀ ev, lookupKey st.emailVerifications email = some ev →
      ev.code ≠ lowerString code →
      ((ev.tries + 1 ≤ 5 →
        completeEmailVerification st email code =
          (.error .emailVerificationFailed,
            { st with emailVerifications :=
                upsertKey st.emailVerifications email { ev with tries := ev.tries + 1 } })) ∧
       (ev.tries + 1 > 5 →
        completeEmailVerification st email code =
          (.error .emailVerificationTriesExceeded,
            { st with emailVerifications := removeKey st.emailVerifications email }) ∧
        lookupKey (removeKey st.emailVerifications email) email = none))) ∧
    (∀ ev, lookupKey st.emailVerifications email = some ev →
      ev.code = lowerString code →
      completeEmailVerification st email code = (.ok ev.token, st)) := by
  refine ⟨?_, ?_, ?_⟩
  · intro h
    simp only [completeEmailVerification, checkEmailVerificationCode, h]
  · intro ev hev hne
    constructor
    · intro hle
      simp only [completeEmailVerification, checkEmailVerificationCode, hev]
      rw [if_pos hne, if_neg (by omega)]
    · intro hgt
      simp only [completeEmailVerification, checkEmailVerificationCode, hev]
      rw [if_pos hne, if_pos (by omega)]
      exact ⟨rfl, lookupKey_removeKey_self _ _⟩
  · intro ev hev heq
    simp only [completeEmailVerification, checkEmailVerificationCode, hev]
    rw [if_neg (fun hc => hc heq)]

/-- The state whose record for `b@x` already carries five failed
tries. -/
def c8Exhausted : ServerState :=
  { emailVerifications := [("b@x", { email := "b@x", code := "secret", token := 7, tries := 5 })] }

/-- Witness for `emailVerification_code_flow`: all four behaviours at
concrete inputs --- missing record, a non-exhausting wrong code, the
sixth wrong code destroying the record, and a correct code returning the
token without deleting the record. -/
theorem emailVerification_code_flow_witness :
    completeEmailVerification { } "b@x" "bad" = (.error .emailVerificationRequired, { }) ∧
    completeEmailVerification c8State "b@x" "bad" =
      (.error .emailVerificationFailed,
        { emailVerifications := [("b@x", { email := "b@x", code := "secret", token := 7, tries := 1 })] }) ∧
    (completeEmailVerification c8Exhausted "b@x" "bad" =
      (.error .emailVerificationTriesExceeded, { emailVerifications := [] }) ∧
      lookupKey (removeKey c8Exhausted.emailVerifications "b@x") "b@x" = none) ∧
    completeEmailVerification c8Exhausted "b@x" "SECRET" = (.ok 7, c8Exhausted) := by
  refine ⟨(emailVerification_code_flow { } "b@x" "bad").1 rfl, ?_, ?_, ?_⟩
  · exact ((emailVerification_code_flow c8State "b@x" "bad").2.1
      { email := "b@x", code := "secret", token := 7 } rfl (by decide)).1 (by decide)
  · exact ((emailVerification_code_flow c8Exhausted "b@x" "bad").2.1
      { email := "b@x", code := "secret", token := 7, tries := 5 } rfl (by decide)).2 (by decide)
  · exact (emailVerification_code_flow c8Exhausted "b@x" "SECRET").2.2
      { email := "b@x", code := "secret", token := 7, tries := 5 } rfl (by decide)

/-! ### Loop lemmas for `updateOrg`, `updateAccount` and `recoverAccount` -/

/-- The invite loop only touches the email-verification store and the
entropy counter; the counter never decreases. -/
theorem processAddedInvites_fields (l : List Invite) (st : ServerState) :
    (processAddedInvites st l).orgs = st.orgs ∧
    (processAddedInvites st l).accounts = st.accounts ∧
    (processAddedInvites st l).vaults = st.vaults ∧
    (processAddedInvites st l).sessions = st.sessions ∧
    st.nextId ≤ (processAddedInvites st l).nextId := by
  induction l generalizing st with
  | nil => simp [processAddedInvites]
  | cons invite rest ih =>
    cases ha : lookupKey st.auths invite.email with
    | some a =>
      simp only [processAddedInvites, ha]
      exact ih st
    | none =>
      simp only [processAddedInvites, ha]
      obtain ⟨h1, h2, h3, h4, h5⟩ := ih
        { st with nextId := st.nextId + 1,
                  emailVerifications := upsertKey st.emailVerifications invite.email
                    { email := invite.email, code := Nat.repr st.nextId, token := st.nextId } }
      exact ⟨h1, h2, h3, h4, Nat.le_trans (Nat.le_succ _) h5⟩

/-- The removed-members loop succeeds when every removed member's
account exists; it only rewrites the account store, preserving key
presence there. -/
theorem removeMemberAccounts_ok (orgId : Nat) (l : List OrgMember) (st : ServerState)
    (h : ∀ m ∈ l, (lookupKey st.accounts m.id).isSome) :
    ∃ st2, removeMemberAccounts orgId st l = (.ok (), st2) ∧
      st2.orgs = st.orgs ∧ st2.vaults = st.vaults ∧ st2.sessions = st.sessions ∧
      st2.auths = st.auths ∧ st2.emailVerifications = st.emailVerifications ∧
      st2.nextId = st.nextId ∧
      (∀ k, (lookupKey st.accounts k).isSome → (lookupKey st2.accounts k).isSome) := by
  induction l generalizing st with
  | nil => exact ⟨st, rfl, rfl, rfl, rfl, rfl, rfl, rfl, fun _ hk => hk⟩
  | cons m rest ih =>
    obtain ⟨acc, hacc⟩ := Option.isSome_iff_exists.mp (h m (List.mem_cons_self m rest))
    obtain ⟨st2, hrun, h1, h2, h3, h4, h5, h6, h7⟩ := ih
      { st with accounts := upsertKey st.accounts acc.id { acc with orgs := acc.orgs.filter (fun i => i ≠ orgId) } }
      (fun m2 hm2 => lookupKey_upsertKey_isSome _ _ _ _ (h m2 (List.mem_cons_of_mem m hm2)))
    exact ⟨st2, by simp only [removeMemberAccounts, hacc]; exact hrun,
      h1, h2, h3, h4, h5, h6,
      fun k hk => h7 k (lookupKey_upsertKey_isSome _ _ _ _ hk)⟩

/-- The added-members loop: same store discipline as the removal
loop. -/
theorem addMemberAccounts_ok (orgId : Nat) (l : List OrgMember) (st : ServerState)
    (h : ∀ m ∈ l, (lookupKey st.accounts m.id).isSome) :
    ∃ st2, addMemberAccounts orgId st l = (.ok (), st2) ∧
      st2.orgs = st.orgs ∧ st2.vaults = st.vaults ∧ st2.sessions = st.sessions ∧
      st2.auths = st.auths ∧ st2.emailVerifications = st.emailVerifications ∧
      st2.nextId = st.nextId ∧
      (∀ k, (lookupKey st.accounts k).isSome → (lookupKey st2.accounts k).isSome) := by
  induction l generalizing st with
  | nil => exact ⟨st, rfl, rfl, rfl, rfl, rfl, rfl, rfl, fun _ hk => hk⟩
  | cons m rest ih =>
    obtain ⟨acc, hacc⟩ := Option.isSome_iff_exists.mp (h m (List.mem_cons_self m rest))
    obtain ⟨st2, hrun, h1, h2, h3, h4, h5, h6, h7⟩ := ih
      { st with accounts := upsertKey st.accounts acc.id { acc with orgs := acc.orgs ++ [orgId] } }
      (fun m2 hm2 => lookupKey_upsertKey_isSome _ _ _ _ (h m2 (List.mem_cons_of_mem m hm2)))
    exact ⟨st2, by simp only [addMemberAccounts, hacc]; exact hrun,
      h1, h2, h3, h4, h5, h6,
      fun k hk => h7 k (lookupKey_upsertKey_isSome _ _ _ _ hk)⟩

/-- The vault-rename loop succeeds when every indexed vault exists; it
only rewrites the vault store. -/
theorem renameVaults_ok (newVaults : List VaultEntry) (l : List VaultEntry) (st : ServerState)
    (h : ∀ ve ∈ l, (lookupKey st.vaults ve.id).isSome) :
    ∃ st2, renameVaults newVaults st l = (.ok (), st2) ∧
      st2.orgs = st.orgs ∧ st2.accounts = st.accounts ∧ st2.sessions = st.sessions ∧
      st2.auths = st.auths ∧ st2.emailVerifications = st.emailVerifications ∧
      st2.nextId = st.nextId := by
  induction l generalizing st with
  | nil => exact ⟨st, rfl, rfl, rfl, rfl, rfl, rfl, rfl⟩
  | cons ve rest ih =>
    cases hf : newVaults.find? (fun v => v.id == ve.id) with
    | none =>
      obtain ⟨st2, hrun, hrest⟩ := ih st (fun v hv => h v (List.mem_cons_of_mem ve hv))
      exact ⟨st2, by simp only [renameVaults, hf]; exact hrun, hrest⟩
    | some nv =>
      by_cases hname : nv.name ≠ ve.name
      · obtain ⟨vault, hvault⟩ := Option.isSome_iff_exists.mp (h ve (List.mem_cons_self ve rest))
        obtain ⟨st2, hrun, h1, h2, h3, h4, h5, h6⟩ := ih
          { st with vaults := upsertKey st.vaults vault.id { vault with name := nv.name } }
          (fun v hv => lookupKey_upsertKey_isSome _ _ _ _ (h v (List.mem_cons_of_mem ve hv)))
        refine ⟨st2, ?_, h1, h2, h3, h4, h5, h6⟩
        simp only [renameVaults, hf, hvault]
        rw [if_pos hname]
        exact hrun
      · obtain ⟨st2, hrun, hrest⟩ := ih st (fun v hv => h v (List.mem_cons_of_mem ve hv))
        refine ⟨st2, ?_, hrest⟩
        simp only [renameVaults, hf]
        rw [if_neg hname]
        exact hrun

/-- `find?` over a mapped list has the same success as `find?` with the
transported predicate. -/
theorem find?_map_isSome {α β : Type} (f : α → β) (p : β → Bool) (q : α → Bool)
    (hpq : ∀ x, p (f x) = q x) (l : List α) :
    ((l.map f).find? p).isSome = (l.find? q).isSome := by
  induction l with
  | nil => rfl
  | cons x xs ih =>
    simp only [List.map_cons, List.find?]
    rw [hpq x]
    cases q x
    · simpa using ih
    · rfl

/-- Rewriting member records without touching their ids preserves
`getMember` success. -/
theorem getMember_map_isSome (org : Org) (f : OrgMember → OrgMember)
    (hid : ∀ m, (f m).id = m.id) (a : Nat) :
    (Org.getMember { org with members := org.members.map f } a).isSome =
      (org.getMember a).isSome := by
  unfold Org.getMember
  exact find?_map_isSome f _ _ (fun m => by rw [hid m]) org.members

/-- The name-propagation loop of `updateAccount` succeeds when every
listed org exists and holds a membership for the account; it only
rewrites the org store. -/
theorem updateOrgMemberNames_ok (account : Account) (l : List Nat) (st : ServerState)
    (h : ∀ oid ∈ l, ∃ org, lookupKey st.orgs oid = some org ∧
      (org.getMember account.id).isSome) :
    ∃ st2, updateOrgMemberNames account st l = (.ok (), st2) ∧
      st2.accounts = st.accounts ∧ st2.nextId = st.nextId ∧
      st2.sessions = st.sessions ∧ st2.vaults = st.vaults ∧ st2.auths = st.auths ∧
      st2.emailVerifications = st.emailVerifications := by
  induction l generalizing st with
  | nil => exact ⟨st, rfl, rfl, rfl, rfl, rfl, rfl, rfl⟩
  | cons oid rest ih =>
    obtain ⟨org, horg, hm⟩ := h oid (List.mem_cons_self oid rest)
    obtain ⟨member, hmem⟩ := Option.isSome_iff_exists.mp hm
    have hmap : ∀ m : OrgMember,
        ((fun m => if m.id = account.id then { m with name := account.name } else m) m).id
          = m.id := by
      intro m
      by_cases hc : m.id = account.id <;> simp [hc]
    obtain ⟨st2, hrun, hrest⟩ := ih
      { st with orgs := upsertKey st.orgs org.id { org with members := org.members.map (fun m => if m.id = account.id then { m with name := account.name } else m) } }
      (by
        intro oid2 hoid2
        obtain ⟨org2, horg2, hm2⟩ := h oid2 (List.mem_cons_of_mem oid hoid2)
        by_cases hk : oid2 = org.id
        · rw [hk]
          exact ⟨_, lookupKey_upsertKey_self _ _ _,
            by rw [getMember_map_isSome org _ hmap account.id]; exact hm⟩
        · exact ⟨org2, by rw [lookupKey_upsertKey_ne _ _ _ _ hk]; exact horg2, hm2⟩)
    refine ⟨st2, ?_, hrest⟩
    simp only [updateOrgMemberNames, horg, hmem]
    exact hrun

/-- The suspension loop of `recoverAccount` succeeds when every listed
org exists (keyed by its own id) with a membership for the account; it
rewrites only the org store: orgs the account owns are untouched, every
other listed org gets the membership role set to Suspended. -/
theorem suspendOrgMemberships_spec (account : Account) (l : List Nat) (st : ServerState)
    (hnd : l.Nodup)
    (h : ∀ oid ∈ l, ∃ org, lookupKey st.orgs oid = some org ∧ org.id = oid ∧
      (org.getMember account.id).isSome) :
    ∃ st2, suspendOrgMemberships account st l = (.ok (), st2) ∧
      st2.sessions = st.sessions ∧ st2.accounts = st.accounts ∧
      st2.auths = st.auths ∧ st2.vaults = st.vaults ∧
      st2.emailVerifications = st.emailVerifications ∧ st2.nextId = st.nextId ∧
      (∀ oid, oid ∉ l → lookupKey st2.orgs oid = lookupKey st.orgs oid) ∧
      (∀ oid org, oid ∈ l → lookupKey st.orgs oid = some org →
        (org.isOwner account.id = true → lookupKey st2.orgs oid = some org) ∧
        (org.isOwner account.id = false →
          lookupKey st2.orgs oid = some (suspendMemberRole org account.id))) := by
  induction l generalizing st with
  | nil =>
    exact ⟨st, rfl, rfl, rfl, rfl, rfl, rfl, rfl, fun _ _ => rfl, fun oid org hmem => by simp at hmem⟩
  | cons oid rest ih =>
    obtain ⟨hnotin, hndrest⟩ := List.nodup_cons.mp hnd
    obtain ⟨org, horg, hid, hm⟩ := h oid (List.mem_cons_self oid rest)
    obtain ⟨member, hmem⟩ := Option.isSome_iff_exists.mp hm
    by_cases howner : org.isOwner account.id = true
    · obtain ⟨st2, hrun, h1, h2, h3, h4, h5, h6, hout, hin⟩ := ih st hndrest
        (fun oid2 hoid2 => h oid2 (List.mem_cons_of_mem oid hoid2))
      refine ⟨st2, ?_, h1, h2, h3, h4, h5, h6, ?_, ?_⟩
      · simp only [suspendOrgMemberships, horg, howner]
        rw [if_pos trivial]
        exact hrun
      · intro oid2 hoid2
        exact hout oid2 (fun hmem2 => hoid2 (List.mem_cons_of_mem oid hmem2))
      · intro oid2 org2 hmem2 horg2
        rcases List.mem_cons.mp hmem2 with rfl | hmem2
        · have : org2 = org := by rw [horg] at horg2; exact (Option.some.inj horg2).symm
          subst this
          refine ⟨fun _ => ?_, fun hfalse => absurd howner (by simp [hfalse])⟩
          rw [hout oid2 hnotin]
          exact horg2
        · exact hin oid2 org2 hmem2 horg2
    · have howner2 : org.isOwner account.id = false := by
        cases hof : org.isOwner account.id
        · rfl
        · exact absurd hof howner
      obtain ⟨st2, hrun, h1, h2, h3, h4, h5, h6, hout, hin⟩ := ih
        { st with orgs := upsertKey st.orgs org.id (suspendMemberRole org account.id) }
        hndrest
        (by
          intro oid2 hoid2
          obtain ⟨org2, horg2, hid2, hm2⟩ := h oid2 (List.mem_cons_of_mem oid hoid2)
          have hne : oid2 ≠ oid := fun hc => hnotin (hc ▸ hoid2)
          refine ⟨org2, ?_, hid2, hm2⟩
          rw [hid, lookupKey_upsertKey_ne _ _ _ _ hne]
          exact horg2)
      refine ⟨st2, ?_, h1, h2, h3, h4, h5, h6, ?_, ?_⟩
      · simp only [suspendOrgMemberships, horg, howner2, Bool.false_eq_true, if_false, hmem]
        exact hrun
      · intro oid2 hoid2
        have hne : oid2 ≠ oid := fun hc => hoid2 (hc ▸ List.mem_cons_self oid rest)
        rw [hout oid2 (fun hmem2 => hoid2 (List.mem_cons_of_mem oid hmem2))]
        rw [hid] at *
        exact lookupKey_upsertKey_ne _ _ _ _ hne
      · intro oid2 org2 hmem2 horg2
        rcases List.mem_cons.mp hmem2 with rfl | hmem2
        · have : org2 = org := by rw [horg] at horg2; exact (Option.some.inj horg2).symm
          subst this
          refine ⟨fun htrue => absurd htrue (by simp [howner2]), fun _ => ?_⟩
          rw [hout oid2 hnotin, hid]
          exact lookupKey_upsertKey_self _ _ _
        · have hne : oid2 ≠ oid := fun hc => hnotin (hc ▸ hmem2)
          refine hin oid2 org2 hmem2 ?_
          rw [hid]
          rw [lookupKey_upsertKey_ne _ _ _ _ hne]
          exact horg2

/-! ### C9: account recovery revokes sessions and suspends memberships -/

theorem lookupKey_removeKey_some {κ α : Type} [DecidableEq κ]
    (l : List (κ × α)) (k k2 : κ) (a : α)
    (h : lookupKey (removeKey l k2) k = some a) : lookupKey l k = some a := by
  by_cases hk : k = k2
  · rw [hk, lookupKey_removeKey_self] at h
    exact absurd h (by simp)
  · rwa [lookupKey_removeKey_ne _ _ _ hk] at h

/-- A key still present after the bulk session removal was present
before it. -/
theorem foldl_removeKey_lookup_some (l : List Session) (ss : List (Nat × Session))
    (k : Nat) (s : Session)
    (h : lookupKey (l.foldl (fun ss s => removeKey ss s.id) ss) k = some s) :
    lookupKey ss k = some s := by
  induction l generalizing ss with
  | nil => simpa using h
  | cons hd tl ih =>
    simp only [List.foldl_cons] at h
    exact lookupKey_removeKey_some _ _ _ _ (ih _ h)

/-- C9: a successful `recoverAccount` (valid token, auth/account records
present, every listed org holding a membership, and the account's
session list covering all its stored sessions) deletes every stored
session belonging to the account, and for every org in the account's
orgs list: an org the account owns is left untouched, any other org is
persisted with the account's membership role set to Suspended. -/
theorem recoverAccount_revokes_and_suspends (ctx : Context) (st : ServerState)
    (p : RecoverAccountParams) (ev : EmailVerification) (existingAuth : Auth)
    (account : Account)
    (hev : lookupKey st.emailVerifications p.auth.email = some ev)
    (htok : ev.token = p.verify)
    (hauth : lookupKey st.auths p.auth.email = some existingAuth)
    (hacc : lookupKey st.accounts existingAuth.account = some account)
    (hnd : account.orgs.Nodup)
    (horgs : ∀ oid ∈ account.orgs, ∃ org, lookupKey st.orgs oid = some org ∧ org.id = oid ∧
      (org.getMember account.id).isSome)
    (hsess : ∀ sid s, lookupKey st.sessions sid = some s → s.account = account.id →
      ∃ si ∈ account.sessions, si.id = sid) :
    ∃ a st2, recoverAccount ctx st p = (.ok a, st2) ∧
      (∀ sid s, lookupKey st2.sessions sid = some s → s.account ≠ account.id) ∧
      (∀ oid org, oid ∈ account.orgs → lookupKey st.orgs oid = some org →
        (org.isOwner account.id = true → lookupKey st2.orgs oid = some org) ∧
        (org.isOwner account.id = false →
          lookupKey st2.orgs oid = some (suspendMemberRole org account.id))) := by
  obtain ⟨st3, hrun, hsess3, hacc3, hauth3, hvau3, hev3, hnid3, hout, hin⟩ :=
    suspendOrgMemberships_spec
      { account with email := p.account.email, publicKey := p.account.publicKey,
                     keyParams := p.account.keyParams,
                     encryptionParams := p.account.encryptionParams,
                     encryptedData := p.account.encryptedData }
      account.orgs
      { st with sessions := List.foldl (fun ss s => removeKey ss s.id) st.sessions account.sessions,
                emailVerifications := removeKey st.emailVerifications p.auth.email }
      hnd
      (by
        intro oid hoid
        obtain ⟨org, horg, hid, hm⟩ := horgs oid hoid
        exact ⟨org, horg, hid, hm⟩)
  simp only [recoverAccount, checkEmailVerificationToken, hev]
  rw [if_neg (fun hc => hc htok)]
  simp only [hauth, hacc]
  rw [hrun]
  refine ⟨_, _, rfl, ?_, ?_⟩
  · intro sid s hl hsa
    have h0 : lookupKey st3.sessions sid = some s := hl
    rw [hsess3] at h0
    have hfold : lookupKey
        (List.foldl (fun ss s => removeKey ss s.id) st.sessions account.sessions) sid = some s := h0
    obtain ⟨si, hsi, hsiid⟩ := hsess sid s (foldl_removeKey_lookup_some _ _ _ _ hfold) hsa
    have hnone := removeSessions_lookup_none account.sessions st.sessions sid ⟨si, hsi, hsiid⟩
    rw [hnone] at hfold
    exact absurd hfold (by simp)
  · intro oid org hmem horg
    obtain ⟨ht, hf⟩ := hin oid org hmem horg
    exact ⟨fun h => ht h, fun h => hf h⟩

/-- C9 witness setup: account 10 has one session (id 40), owns org 5 and
is a plain member of org 6. -/
def c9Sess : Session := { id := 40, account := 10 }

def c9Org5 : Org :=
  { id := 5, revision := 1, owner := 10, members := [{ id := 10, role := .owner }] }

def c9Org6 : Org :=
  { id := 6, revision := 1, owner := 1,
    members := [{ id := 1, role := .owner }, { id := 10, role := .member }] }

def c9Account : Account :=
  { id := 10, email := "a@x", sessions := [c9Sess], orgs := [5, 6] }

def c9State : ServerState :=
  { emailVerifications := [("a@x", { email := "a@x", code := "c", token := 7 })],
    auths := [("a@x", { email := "a@x", account := 10 })],
    accounts := [(10, c9Account)],
    sessions := [(40, c9Sess)],
    orgs := [(5, c9Org5), (6, c9Org6)] }

def c9Params : RecoverAccountParams :=
  { account := { email := "a@x" }, auth := { email := "a@x" }, verify := 7 }

/-- Witness for `recoverAccount_revokes_and_suspends` at the concrete
recovery scenario. -/
theorem recoverAccount_revokes_and_suspends_witness :
    ∃ a st2, recoverAccount { } c9State c9Params = (.ok a, st2) ∧
      (∀ sid s, lookupKey st2.sessions sid = some s → s.account ≠ c9Account.id) ∧
      (∀ oid org, oid ∈ c9Account.orgs → lookupKey c9State.orgs oid = some org →
        (org.isOwner c9Account.id = true → lookupKey st2.orgs oid = some org) ∧
        (org.isOwner c9Account.id = false →
          lookupKey st2.orgs oid = some (suspendMemberRole org c9Account.id))) :=
  recoverAccount_revokes_and_suspends { } c9State c9Params
    { email := "a@x", code := "c", token := 7 } { email := "a@x", account := 10 } c9Account
    rfl rfl rfl rfl (by decide)
    (by
      intro oid hoid
      have h56 : oid = 5 ∨ oid = 6 := by simpa [c9Account] using hoid
      rcases h56 with rfl | rfl
      · exact ⟨c9Org5, rfl, rfl, by decide⟩
      · exact ⟨c9Org6, rfl, rfl, by decide⟩)
    (by
      intro sid s h hsa
      by_cases h40 : (40 : Nat) = sid
      · exact ⟨c9Sess, by simp [c9Account], h40⟩
      · exfalso
        simp [c9State, lookupKey, h40] at h)

/-! ### C7: a failed quota check does not undo earlier side effects -/

/-- C7 setup: org 5 (member quota 1, already over it) with owner 1 and
members 2 and 3; accounts 1 and 3 exist, account 3 linked to the org. -/
def c7Org : Org :=
  { id := 5, owner := 1, revision := 9,
    members := [{ id := 1, role := .owner }, { id := 2, role := .member },
                { id := 3, role := .member }],
    quota := { members := 1 } }

def c7State : ServerState :=
  { orgs := [(5, c7Org)],
    accounts := [(1, { id := 1, email := "o@x", orgs := [5] }),
                 (3, { id := 3, email := "r@x", orgs := [5] })] }

def c7Ctx : Context :=
  { account := some { id := 1, email := "o@x", orgs := [5] },
    session := some { id := 90, account := 1 } }

/-- The owner removes member 3 and adds a fresh invite, but the two
remaining members still exceed the quota of 1. -/
def c7Params : UpdateOrgParams :=
  { id := 5, revision := 9,
    members := [{ id := 1, role := .owner }, { id := 2, role := .member }],
    invites := [{ id := 9, email := "new@x" }] }

/-- C7 counterexample: the call fails `QUOTA_EXCEEDED` and the Org
record itself is untouched, but stored state HAS changed: the removed
member's account record was already unlinked and saved, and the added
invite's email-verification record was already created --- because the
quota check (lines 496-501) runs after those loops (lines 436-473). -/
theorem updateOrg_quota_failure_side_effects :
    (updateOrg c7Ctx c7State c7Params).1 = .error .quotaExceeded ∧
    lookupKey (updateOrg c7Ctx c7State c7Params).2.accounts 3 =
      some { id := 3, email := "r@x", orgs := [] } ∧
    lookupKey c7State.accounts 3 = some { id := 3, email := "r@x", orgs := [5] } ∧
    (lookupKey (updateOrg c7Ctx c7State c7Params).2.emailVerifications "new@x").isSome = true ∧
    lookupKey (updateOrg c7Ctx c7State c7Params).2.orgs 5 = some c7Org :=
  ⟨rfl, rfl, rfl, rfl, rfl⟩

/-- C7 (amended): when an owner's update exceeds the member or group
quota (revision matching, removed members' accounts and indexed vaults
present), `updateOrg` fails `QUOTA_EXCEEDED` and the Org record itself
is never persisted --- the stored Org is unchanged.  (The side effects
persisted before the check --- removed-member unlinking, vault renames,
pre-issued invite verifications --- are exactly the ones exhibited by
the counterexample.) -/
theorem updateOrg_quota_rejects_org_write (ctx : Context) (st : ServerState)
    (p : UpdateOrgParams) (acc : Account) (sess : Session) (org : Org)
    (hctxa : ctx.account = some acc) (hctxs : ctx.session = some sess)
    (ho : lookupKey st.orgs p.id = some org)
    (hrev : p.revision = org.revision)
    (hown : org.owner = acc.id)
    (hrm : ∀ m ∈ orgRemovedMembers org p.members, (lookupKey st.accounts m.id).isSome)
    (hrv : ∀ ve ∈ org.vaults, (lookupKey st.vaults ve.id).isSome)
    (hq : (org.quota.members ≠ -1 ∧ (p.members.length : Int) > org.quota.members) ∨
          (org.quota.groups ≠ -1 ∧ (p.groups.length : Int) > org.quota.groups)) :
    ∃ st2, updateOrg ctx st p = (.error .quotaExceeded, st2) ∧
      lookupKey st2.orgs p.id = some org := by
  have hOwnerB : (org.owner == acc.id || org.isOwner acc.id) = true := by
    simp [hown]
  obtain ⟨ho1, ha1, hv1, hs1, hn1⟩ :=
    processAddedInvites_fields (orgAddedInvites org p.invites) st
  obtain ⟨st2, hrun2, g1, g2, g3, g4, g5, g6, g7⟩ :=
    removeMemberAccounts_ok org.id (orgRemovedMembers org p.members)
      (processAddedInvites st (orgAddedInvites org p.invites))
      (by intro m hm; rw [ha1]; exact hrm m hm)
  obtain ⟨st3, hrun3, f1, f2, f3, f4, f5, f6⟩ :=
    renameVaults_ok p.vaults org.vaults st2
      (by intro ve hve; rw [g2, hv1]; exact hrv ve hve)
  simp only [updateOrg, requireAuth, hctxa, hctxs, ho]
  rw [if_neg (fun hc => hc hrev)]
  simp only [hOwnerB, Bool.true_or, eq_self_iff_true, not_true, false_and, if_false, if_true]
  rw [hrun2]
  dsimp only
  rw [hrun3]
  dsimp only
  rw [if_pos hq]
  refine ⟨st3, rfl, ?_⟩
  rw [f1, g1, ho1]
  exact ho

/-- Witness for `updateOrg_quota_rejects_org_write` at the counterexample
scenario. -/
theorem updateOrg_quota_rejects_org_write_witness :
    ∃ st2, updateOrg c7Ctx c7State c7Params = (.error .quotaExceeded, st2) ∧
      lookupKey st2.orgs 5 = some c7Org :=
  updateOrg_quota_rejects_org_write c7Ctx c7State c7Params
    { id := 1, email := "o@x", orgs := [5] } { id := 90, account := 1 } c7Org
    rfl rfl rfl rfl rfl (by decide) (by decide) (.inl (by decide))

/-! ### C5: the revision guard on updateAccount / updateOrg / updateVault -/

/-- C5: for each of `updateAccount`, `updateOrg` and `updateVault`, a
submitted `revision` different from the stored one fails
`OUTDATED_REVISION` leaving the state untouched, while the stored
revision (with the caller authorized, quotas clear and referenced
records present, and the stored revision below the entropy counter, as
every uuid-issued revision is) succeeds and persists the aggregate under
a fresh revision different from the submitted one. -/
theorem revision_guard (ctx : Context) (st : ServerState) :
    (∀ (p : UpdateAccountParams) acc sess, ctx.account = some acc → ctx.session = some sess →
      p.revision ≠ acc.revision →
      updateAccount ctx st p = (.error .outdatedRevision, st)) ∧
    (∀ (p : UpdateAccountParams) acc sess, ctx.account = some acc → ctx.session = some sess →
      p.revision = acc.revision → acc.revision < st.nextId →
      (∀ oid ∈ acc.orgs, ∃ org, lookupKey st.orgs oid = some org ∧
        (org.getMember acc.id).isSome) →
      ∃ acc2 st2, updateAccount ctx st p = (.ok acc2, st2) ∧
        lookupKey st2.accounts acc.id = some acc2 ∧ acc2.revision ≠ p.revision) ∧
    (∀ (p : UpdateOrgParams) acc sess org, ctx.account = some acc → ctx.session = some sess →
      lookupKey st.orgs p.id = some org → p.revision ≠ org.revision →
      updateOrg ctx st p = (.error .outdatedRevision, st)) ∧
    (∀ (p : UpdateOrgParams) acc sess org, ctx.account = some acc → ctx.session = some sess →
      lookupKey st.orgs p.id = some org → p.revision = org.revision →
      org.id = p.id → org.owner = acc.id → org.revision < st.nextId →
      (∀ m ∈ orgRemovedMembers org p.members, (lookupKey st.accounts m.id).isSome) →
      (∀ ve ∈ org.vaults, (lookupKey st.vaults ve.id).isSome) →
      (∀ m ∈ orgAddedMembers org p.members, (lookupKey st.accounts m.id).isSome) →
      ¬ ((org.quota.members ≠ -1 ∧ (p.members.length : Int) > org.quota.members) ∨
         (org.quota.groups ≠ -1 ∧ (p.groups.length : Int) > org.quota.groups)) →
      ∃ org2 st2, updateOrg ctx st p = (.ok org2, st2) ∧
        lookupKey st2.orgs p.id = some org2 ∧ org2.revision ≠ p.revision) ∧
    (∀ (p : UpdateVaultParams) acc sess vault, ctx.account = some acc → ctx.session = some sess →
      lookupKey st.vaults p.id = some vault →
      (∀ orgRef, vault.org = some orgRef → ∃ org, lookupKey st.orgs orgRef.id = some org ∧
        org.canRead vault acc.id = true ∧ org.canWrite vault acc.id = true) →
      (vault.org = none → vault.owner = some acc.id) →
      p.revision ≠ vault.revision →
      updateVault ctx st p = (.error .outdatedRevision, st)) ∧
    (∀ (p : UpdateVaultParams) acc sess vault, ctx.account = some acc → ctx.session = some sess →
      lookupKey st.vaults p.id = some vault →
      (∀ orgRef, vault.org = some orgRef → ∃ org, lookupKey st.orgs orgRef.id = some org ∧
        org.canRead vault acc.id = true ∧ org.canWrite vault acc.id = true) →
      (vault.org = none → vault.owner = some acc.id) →
      p.revision = vault.revision → vault.id = p.id → vault.revision < st.nextId →
      ∃ v2 st2, updateVault ctx st p = (.ok v2, st2) ∧
        lookupKey st2.vaults p.id = some v2 ∧ v2.revision ≠ p.revision) := by
  refine ⟨?_, ?_, ?_, ?_, ?_, ?_⟩
  · intro p acc sess hctxa hctxs hne
    simp only [updateAccount, requireAuth, hctxa, hctxs]
    rw [if_pos hne]
  · intro p acc sess hctxa hctxs hrev hfresh horgs
    simp only [updateAccount, requireAuth, hctxa, hctxs]
    rw [if_neg (fun hc => hc hrev)]
    by_cases hname : acc.name ≠ p.name
    · obtain ⟨st2, hrun, hacc2, hrest⟩ :=
        updateOrgMemberNames_ok
          { acc with revision := st.nextId, name := p.name, email := p.email,
                     publicKey := p.publicKey, keyParams := p.keyParams,
                     encryptionParams := p.encryptionParams,
                     encryptedData := p.encryptedData, updated := st.now }
          acc.orgs
          { st with nextId := st.nextId + 1,
                    accounts := upsertKey st.accounts acc.id
                      { acc with revision := st.nextId, name := p.name, email := p.email,
                                 publicKey := p.publicKey, keyParams := p.keyParams,
                                 encryptionParams := p.encryptionParams,
                                 encryptedData := p.encryptedData, updated := st.now } }
          (by
            intro oid hoid
            obtain ⟨org, horg, hm⟩ := horgs oid hoid
            exact ⟨org, horg, hm⟩)
      rw [if_pos hname, hrun]
      refine ⟨_, st2, rfl, ?_, ?_⟩
      · rw [hacc2]
        exact lookupKey_upsertKey_self _ _ _
      · intro hc
        have hc2 : st.nextId = p.revision := hc
        omega
    · rw [if_neg hname]
      refine ⟨_, _, rfl, lookupKey_upsertKey_self _ _ _, ?_⟩
      intro hc
      have hc2 : st.nextId = p.revision := hc
      omega
  · intro p acc sess org hctxa hctxs ho hne
    simp only [updateOrg, requireAuth, hctxa, hctxs, ho]
    rw [if_pos hne]
  · intro p acc sess org hctxa hctxs ho hrev hoid hown hfresh hrm hrv ham hq
    have hOwnerB : (org.owner == acc.id || org.isOwner acc.id) = true := by
      simp [hown]
    obtain ⟨ho1, ha1, hv1, hs1, hn1⟩ :=
      processAddedInvites_fields (orgAddedInvites org p.invites) st
    obtain ⟨st2, hrun2, g1, g2, g3, g4, g5, g6, g7⟩ :=
      removeMemberAccounts_ok org.id (orgRemovedMembers org p.members)
        (processAddedInvites st (orgAddedInvites org p.invites))
        (by intro m hm; rw [ha1]; exact hrm m hm)
    obtain ⟨st3, hrun3, f1, f2, f3, f4, f5, f6⟩ :=
      renameVaults_ok p.vaults org.vaults st2
        (by intro ve hve; rw [g2, hv1]; exact hrv ve hve)
    obtain ⟨st4, hrun4, k1, k2, k3, k4, k5, k6, k7⟩ :=
      addMemberAccounts_ok org.id (orgAddedMembers org p.members) st3
        (by intro m hm; rw [f2]; apply g7; rw [ha1]; exact ham m hm)
    simp only [updateOrg, requireAuth, hctxa, hctxs, ho]
    rw [if_neg (fun hc => hc hrev)]
    simp only [hOwnerB, Bool.true_or, eq_self_iff_true, not_true, false_and, if_false,
      if_true]
    rw [hrun2]
    dsimp only
    rw [hrun3]
    dsimp only
    rw [if_neg hq, hrun4]
    dsimp only
    refine ⟨_, _, rfl, ?_, ?_⟩
    · rw [← hoid]
      exact lookupKey_upsertKey_self _ _ _
    · intro hc
      have hc2 : st4.nextId = p.revision := hc
      have e3 : st3.nextId = st2.nextId := f6
      have e1 : st2.nextId = (processAddedInvites st (orgAddedInvites org p.invites)).nextId := g6
      omega
  · intro p acc sess vault hctxa hctxs hv hworg hpriv hne
    cases hvo : vault.org with
    | none =>
      simp only [updateVault, requireAuth, hctxa, hctxs, hv, hvo]
      rw [if_neg (fun hc => hc (hpriv hvo)), if_pos hne]
    | some orgRef =>
      obtain ⟨org, horgL, hcr, hcw⟩ := hworg orgRef hvo
      simp only [updateVault, requireAuth, hctxa, hctxs, hv, hvo, horgL, hcr, hcw,
        eq_self_iff_true, not_true, if_false]
      rw [if_pos hne]
  · intro p acc sess vault hctxa hctxs hv hworg hpriv hrev hvid hfresh
    cases hvo : vault.org with
    | none =>
      simp only [updateVault, requireAuth, hctxa, hctxs, hv, hvo]
      rw [if_neg (fun hc => hc (hpriv hvo)), if_neg (fun hc => hc hrev)]
      refine ⟨_, _, rfl, ?_, ?_⟩
      · rw [← hvid]
        exact lookupKey_upsertKey_self _ _ _
      · intro hc
        have hc2 : st.nextId = p.revision := hc
        omega
    | some orgRef =>
      obtain ⟨org, horgL, hcr, hcw⟩ := hworg orgRef hvo
      simp only [updateVault, requireAuth, hctxa, hctxs, hv, hvo, horgL, hcr, hcw,
        eq_self_iff_true, not_true, if_false]
      rw [if_neg (fun hc => hc hrev)]
      refine ⟨_, _, rfl, ?_, ?_⟩
      · rw [← hvid]
        exact lookupKey_upsertKey_self _ _ _
      · intro hc
        have hc2 : st.nextId = p.revision := hc
        omega

/-- C5 witness setup: account 1 (stored revision 4) owning org 5
(revision 6) and private vault 7 (revision 3). -/
def c5Acc : Account := { id := 1, email := "w@x", revision := 4 }

def c5Org : Org :=
  { id := 5, owner := 1, revision := 6, members := [{ id := 1, role := .owner }] }

def c5Vault : Vault := { id := 7, owner := some 1, revision := 3 }

def c5State : ServerState :=
  { accounts := [(1, c5Acc)], orgs := [(5, c5Org)], vaults := [(7, c5Vault)] }

def c5Ctx : Context := { account := some c5Acc, session := some { id := 80, account := 1 } }

def c5OrgParams : UpdateOrgParams :=
  { id := 5, revision := 6, members := [{ id := 1, role := .owner }] }

/-- Witness for `revision_guard`: all six behaviours at concrete
inputs. -/
theorem revision_guard_witness :
    updateAccount c5Ctx c5State { revision := 99 } = (.error .outdatedRevision, c5State) ∧
    (∃ acc2 st2, updateAccount c5Ctx c5State { revision := 4 } = (.ok acc2, st2) ∧
      lookupKey st2.accounts 1 = some acc2 ∧ acc2.revision ≠ 4) ∧
    updateOrg c5Ctx c5State { id := 5, revision := 99 } = (.error .outdatedRevision, c5State) ∧
    (∃ org2 st2, updateOrg c5Ctx c5State c5OrgParams = (.ok org2, st2) ∧
      lookupKey st2.orgs 5 = some org2 ∧ org2.revision ≠ 6) ∧
    updateVault c5Ctx c5State { id := 7, revision := 99 } = (.error .outdatedRevision, c5State) ∧
    (∃ v2 st2, updateVault c5Ctx c5State { id := 7, revision := 3 } = (.ok v2, st2) ∧
      lookupKey st2.vaults 7 = some v2 ∧ v2.revision ≠ 3) := by
  obtain ⟨h1, h2, h3, h4, h5, h6⟩ := revision_guard c5Ctx c5State
  refine ⟨?_, ?_, ?_, ?_, ?_, ?_⟩
  · exact h1 { revision := 99 } c5Acc { id := 80, account := 1 } rfl rfl (by decide)
  · exact h2 { revision := 4 } c5Acc { id := 80, account := 1 } rfl rfl rfl (by decide)
      (by intro oid h; exact absurd h (List.not_mem_nil oid))
  · exact h3 { id := 5, revision := 99 } c5Acc { id := 80, account := 1 } c5Org rfl rfl rfl
      (by decide)
  · exact h4 c5OrgParams c5Acc { id := 80, account := 1 } c5Org rfl rfl rfl rfl rfl rfl
      (by decide) (by decide) (by decide) (by decide) (by decide)
  · exact h5 { id := 7, revision := 99 } c5Acc { id := 80, account := 1 } c5Vault rfl rfl rfl
      (by intro r h; simp [c5Vault] at h) (fun _ => rfl) (by decide)
  · exact h6 { id := 7, revision := 3 } c5Acc { id := 80, account := 1 } c5Vault rfl rfl rfl
      (by intro r h; simp [c5Vault] at h) (fun _ => rfl) rfl rfl (by decide)
